import Mathlib

/-!
# Verification of the GraceVerse bible reader core services

Shallow embedding of the content-resolution pipeline (`bibleService` /
`bibleDb`) and the realtime audio services (`liveService`) of the
repository, together with proofs of the spec claims about them.

JavaScript numbers are modelled as `Option ℚ` (`none` models `NaN`);
machine 16-bit integers appear explicitly through `% 65536` wrapping.
Where two divergent variants of the same module coexist in the sources,
the most capable (latest) variant is embedded, as the spec directs:
`src/unnamed/part_003` for `bibleDb`/`bibleService`,
`src/unnamed/part_002` for `LiveService`, and the
`src/src/services/liveService.ts` copy of `bibleDb.importData` (the one
with the unmatched-ASCII-name skip) and the
`src/src/services/bibleService.ts` copy of `searchBible` (the one with
the local-first search).
-/

/-- A JavaScript number: `none` models `NaN`. -/
abbrev JsNum := Option ℚ

/-- `Verse` record (`types.ts`): `{ verse: number, text: string }`. -/
structure Verse where
  verse : JsNum
  text : String
deriving DecidableEq, Repr

/-- `SearchResult` record as produced by the local full-text scan
(`bibleDb.search`, part_003): `{ book, chapter, verse, text }`. -/
structure SearchResult where
  book : String
  chapter : JsNum
  verse : JsNum
  text : String
deriving DecidableEq, Repr

/-- Characters matched by the JavaScript regex class `\s`
(ECMAScript WhiteSpace ∪ LineTerminator). -/
def jsWsChar (c : Char) : Bool :=
  c = ' ' || c = '\t' || c = '\n' || c = '\r' ||
  c.val = 11 || c.val = 12 || c.val = 0xa0 || c.val = 0x1680 ||
  (0x2000 ≤ c.val && c.val ≤ 0x200a) || c.val = 0x2028 || c.val = 0x2029 ||
  c.val = 0x202f || c.val = 0x205f || c.val = 0x3000 || c.val = 0xfeff

/-- `text.replace(/\s+/g, '')`: removing every maximal whitespace run is
removing every whitespace character. -/
def stripWs (s : String) : String :=
  ⟨s.data.filter (fun c => !jsWsChar c)⟩

/-- Does `need` occur as a contiguous sublist of `hay`?  Embeds
`String.prototype.includes` (on the char-list view). -/
def listIncl : List Char → List Char → Bool
  | _, [] => true
  | [], _ :: _ => false
  | c :: cs, need =>
      if need.isPrefixOf (c :: cs) then true else listIncl cs need

/-- `hay.includes(need)` for strings. -/
def strIncl (hay need : String) : Bool :=
  listIncl hay.data need.data

/-! ## AudioCodec: float PCM ↔ 16-bit PCM (part_002 lines 27–58,
claim C7)

`createBlob` clamps each sample to [-1,1], scales by 32768 and stores
the result in an `Int16Array` (the JS `ToInt16` conversion: truncate
toward zero, wrap modulo 2^16 into the signed range); the bytes of that
array are what is transmitted.  `decodeAudioData` reads the bytes back
as 16-bit integers and divides by 32768. -/

/-- Truncation toward zero of a rational (the integer part step of the
JS `ToInt16` abstract operation). -/
def ratTrunc (x : ℚ) : ℤ :=
  if 0 ≤ x then ⌊x⌋ else ⌈x⌉

/-- JS `ToInt16`: truncate toward zero, reduce modulo 2^16, then map
into the signed range [-32768, 32767]. -/
def toInt16 (x : ℚ) : ℤ :=
  let r := ratTrunc x % 65536
  if 32768 ≤ r then r - 65536 else r

/-- `Math.max(-1, Math.min(1, s))` — the clamp in `createBlob`. -/
def clamp1 (x : ℚ) : ℚ := max (-1) (min 1 x)

/-- Per-sample float→PCM16 conversion of `createBlob`
(part_002 lines 27–38): clamp, scale by 32768, store as int16. -/
def createBlobSample (s : ℚ) : ℤ :=
  toInt16 (clamp1 s * 32768)

/-- The two little-endian bytes of an int16 as laid out by
`new Uint8Array(int16.buffer)`. -/
def int16ToBytes (v : ℤ) : ℕ × ℕ :=
  let u := (v % 65536).toNat
  (u % 256, u / 256)

/-- Reading two little-endian bytes back as a signed 16-bit integer
(the `Int16Array` view taken by `decodeAudioData`). -/
def bytesToInt16 (lo hi : ℕ) : ℤ :=
  let u := lo + 256 * hi
  if 32768 ≤ u then (u : ℤ) - 65536 else u

/-- Per-sample PCM16→float conversion of `decodeAudioData`
(part_002 lines 41–58): divide by 32768. -/
def decodeSample (v : ℤ) : ℚ := (v : ℚ) / 32768

/-- One-sample round trip: encode with `createBlob` (including the byte
serialization) and decode with `decodeAudioData`. -/
def pcmRoundTrip (s : ℚ) : ℚ :=
  let b := int16ToBytes (createBlobSample s)
  decodeSample (bytesToInt16 b.1 b.2)

/-! ## PlaybackScheduler (part_002 `handleMessage` audio branch,
lines 224–260, and `stopPlayback`, lines 262–268; claims C5, C6) -/

/-- One scheduled playback segment (an `AudioBufferSourceNode` that has
been `start`ed): its scheduled start position and its duration. -/
structure Segment where
  startAt : ℚ
  duration : ℚ
deriving DecidableEq, Repr

/-- Scheduler state: `nextStartTime` and the `sources` set (in arrival
order). -/
structure SchedState where
  nextStartTime : ℚ
  sources : List Segment
deriving DecidableEq, Repr

/-- The audio branch of `handleMessage` (part_002 lines 228–252):
`nextStartTime = max(nextStartTime, currentTime)`; the segment is
started exactly at `nextStartTime`; `nextStartTime += duration`; the
source is added to the active set.  Returns the new state and the
scheduled start time. -/
def enqueueAudio (now dur : ℚ) (st : SchedState) : SchedState × ℚ :=
  let s := max st.nextStartTime now
  ({ nextStartTime := s + dur,
     sources := st.sources ++ [{ startAt := s, duration := dur }] }, s)

/-- `stopPlayback` (part_002 lines 262–268): stop every source in the
set, clear the set, reset `nextStartTime` to 0.  Returns the new state
and the list of sources that received `stop()`. -/
def stopPlayback (st : SchedState) : SchedState × List Segment :=
  ({ nextStartTime := 0, sources := [] }, st.sources)

/-- Start times produced by a sequence of enqueues: the i-th chunk is
a pair (clock time observed at that enqueue, buffer duration). -/
def startsFrom (st : SchedState) : List (ℚ × ℚ) → List ℚ
  | [] => []
  | (t, d) :: rest =>
      let p := enqueueAudio t d st
      p.2 :: startsFrom p.1 rest

/-- Sum of the durations of the first `i` chunks. -/
def sumDurTake (chunks : List (ℚ × ℚ)) (i : ℕ) : ℚ :=
  ((chunks.map Prod.snd).take i).sum

/-! ### Scheduler lemmas -/

theorem enqueueAudio_nst (t d : ℚ) (st : SchedState) :
    (enqueueAudio t d st).1.nextStartTime = max st.nextStartTime t + d := rfl

theorem startsFrom_length (st : SchedState) (chunks : List (ℚ × ℚ)) :
    (startsFrom st chunks).length = chunks.length := by
  induction chunks generalizing st with
  | nil => rfl
  | cons c rest ih => obtain ⟨t, d⟩ := c; simp [startsFrom, ih]

theorem sumDurTake_zero (chunks : List (ℚ × ℚ)) : sumDurTake chunks 0 = 0 := rfl

theorem sumDurTake_cons (t d : ℚ) (rest : List (ℚ × ℚ)) (k : ℕ) :
    sumDurTake ((t, d) :: rest) (k + 1) = d + sumDurTake rest k := by
  simp [sumDurTake]

theorem sumDurTake_succ (chunks : List (ℚ × ℚ)) (i : ℕ) (h : i < chunks.length) :
    sumDurTake chunks (i + 1) = sumDurTake chunks i + (chunks.getD i (0, 0)).2 := by
  induction chunks generalizing i with
  | nil => simp at h
  | cons c rest ih =>
    obtain ⟨t, d⟩ := c
    match i with
    | 0 => simp [sumDurTake]
    | Nat.succ j =>
      have hj : j < rest.length := by simpa using h
      have := ih j hj
      simp only [sumDurTake_cons, this, List.getD_cons_succ]
      ring

theorem startsFrom_formula (chunks : List (ℚ × ℚ)) (st : SchedState)
    (hfast : ∀ i, i < chunks.length →
      (chunks.getD i (0, 0)).1 ≤ st.nextStartTime + sumDurTake chunks i) :
    ∀ i, i < chunks.length →
      (startsFrom st chunks).getD i 0 = st.nextStartTime + sumDurTake chunks i := by
  induction chunks generalizing st with
  | nil => intro i h; simp at h
  | cons c rest ih =>
    obtain ⟨t, d⟩ := c
    have h0 : t ≤ st.nextStartTime := by
      have := hfast 0 (by simp)
      simpa [sumDurTake] using this
    have hmax : max st.nextStartTime t = st.nextStartTime := max_eq_left h0
    intro i hi
    match i with
    | 0 => simp [startsFrom, enqueueAudio, hmax, sumDurTake]
    | Nat.succ j =>
      have hj : j < rest.length := by simpa using hi
      have hrest : ∀ k, k < rest.length →
          (rest.getD k (0, 0)).1
            ≤ (enqueueAudio t d st).1.nextStartTime + sumDurTake rest k := by
        intro k hk
        have hk1 := hfast (k + 1) (by simpa using hk)
        rw [List.getD_cons_succ, sumDurTake_cons] at hk1
        rw [enqueueAudio_nst, hmax]
        linarith
      have := ih (enqueueAudio t d st).1 hrest j hj
      simp only [startsFrom, List.getD_cons_succ, this, enqueueAudio_nst, hmax,
        sumDurTake_cons]
      ring

/-- C5: with enqueues arriving faster than playback (each chunk's clock
time is at most the end of the audio already scheduled, relative to the
first enqueue's clock time `t1`), segment i is scheduled to start at
`t1 + sum of the first i durations`; consecutive segments are
back-to-back (next start = previous start + previous duration, hence no
gap and no overlap) and in FIFO order (starts non-decreasing). -/
theorem c5_playback_back_to_back (st0 : SchedState) (t1 d1 : ℚ)
    (rest : List (ℚ × ℚ))
    (hst : st0.nextStartTime ≤ t1)
    (hfast : ∀ i, i < ((t1, d1) :: rest).length →
      (((t1, d1) :: rest).getD i (0, 0)).1 ≤ t1 + sumDurTake ((t1, d1) :: rest) i)
    (hd : ∀ p ∈ (t1, d1) :: rest, 0 ≤ p.2) :
    (∀ i, i < ((t1, d1) :: rest).length →
      (startsFrom st0 ((t1, d1) :: rest)).getD i 0
        = t1 + sumDurTake ((t1, d1) :: rest) i)
    ∧ (∀ i, i + 1 < ((t1, d1) :: rest).length →
      (startsFrom st0 ((t1, d1) :: rest)).getD (i + 1) 0
        = (startsFrom st0 ((t1, d1) :: rest)).getD i 0
            + (((t1, d1) :: rest).getD i (0, 0)).2
      ∧ (startsFrom st0 ((t1, d1) :: rest)).getD i 0
          ≤ (startsFrom st0 ((t1, d1) :: rest)).getD (i + 1) 0) := by
  have hmax : max st0.nextStartTime t1 = t1 := max_eq_right hst
  have hform : ∀ i, i < ((t1, d1) :: rest).length →
      (startsFrom st0 ((t1, d1) :: rest)).getD i 0
        = t1 + sumDurTake ((t1, d1) :: rest) i := by
    intro i hi
    match i with
    | 0 => simp [startsFrom, enqueueAudio, hmax, sumDurTake]
    | Nat.succ j =>
      have hj : j < rest.length := by simpa using hi
      have hrest : ∀ k, k < rest.length →
          (rest.getD k (0, 0)).1
            ≤ (enqueueAudio t1 d1 st0).1.nextStartTime + sumDurTake rest k := by
        intro k hk
        have hk1 := hfast (k + 1) (by simpa using hk)
        rw [List.getD_cons_succ, sumDurTake_cons] at hk1
        rw [enqueueAudio_nst, hmax]
        linarith
      have := startsFrom_formula rest (enqueueAudio t1 d1 st0).1 hrest j hj
      simp only [startsFrom, List.getD_cons_succ, this, enqueueAudio_nst, hmax,
        sumDurTake_cons]
      ring
  refine ⟨hform, ?_⟩
  intro i hi1
  have hi : i < ((t1, d1) :: rest).length := Nat.lt_of_succ_lt hi1
  have e1 := hform i hi
  have e2 := hform (i + 1) hi1
  have hsucc := sumDurTake_succ ((t1, d1) :: rest) i hi
  have hdnn : 0 ≤ (((t1, d1) :: rest).getD i (0, 0)).2 := by
    have hmem : ((t1, d1) :: rest).getD i (0, 0) ∈ (t1, d1) :: rest := by
      rw [List.getD_eq_getElem ((t1, d1) :: rest) (0, 0) hi]
      exact List.getElem_mem hi
    exact hd _ hmem
  constructor
  · rw [e1, e2, hsucc]; ring
  · rw [e1, e2, hsucc]; linarith

/-- Witness for C5 at concrete inputs: two chunks, durations 1 and 2,
clock times 0 and 1/2, from a fresh scheduler state. -/
theorem c5_playback_back_to_back_witness :
    (startsFrom ⟨0, []⟩ [((0 : ℚ), (1 : ℚ)), (1/2, 2)]).getD 1 0
      = 0 + sumDurTake [((0 : ℚ), (1 : ℚ)), (1/2, 2)] 1 := by
  have h := c5_playback_back_to_back ⟨0, []⟩ 0 1 [(1/2, 2)]
    (le_refl 0)
    (by
      intro i hi
      simp only [List.length_cons, List.length_nil] at hi
      interval_cases i <;> norm_num [sumDurTake])
    (by
      intro p hp
      fin_cases hp <;> norm_num)
  exact h.1 1 (by simp)

/-- C6: after the handling of an inbound "interrupted" signal
(`stopPlayback`), the active set is empty, every previously active
source was stopped, `nextStartTime` is 0, and the next enqueue at clock
time `t ≥ 0` schedules its segment exactly at `t`. -/
theorem c6_interrupt_resets (st : SchedState) (t d : ℚ) (ht : 0 ≤ t) :
    (stopPlayback st).1.sources = []
    ∧ (stopPlayback st).2 = st.sources
    ∧ (stopPlayback st).1.nextStartTime = 0
    ∧ (enqueueAudio t d (stopPlayback st).1).2 = t := by
  refine ⟨rfl, rfl, rfl, ?_⟩
  simp [enqueueAudio, stopPlayback, max_eq_right ht]

/-- Witness for C6 at a concrete state with one active source. -/
theorem c6_interrupt_resets_witness :
    (stopPlayback ⟨7, [⟨0, 3⟩]⟩).1.sources = []
    ∧ (stopPlayback ⟨7, [⟨0, 3⟩]⟩).2 = [⟨0, 3⟩]
    ∧ (stopPlayback ⟨7, [⟨0, 3⟩]⟩).1.nextStartTime = 0
    ∧ (enqueueAudio 5 2 (stopPlayback ⟨7, [⟨0, 3⟩]⟩).1).2 = 5 :=
  c6_interrupt_resets ⟨7, [⟨0, 3⟩]⟩ 5 2 (by norm_num)

/-! ### PCM codec lemmas -/

theorem wrap16_eq (t : ℤ) (h1 : -32768 ≤ t) (h2 : t ≤ 32767) :
    (if 32768 ≤ t % 65536 then t % 65536 - 65536 else t % 65536) = t := by
  split <;> omega

theorem bytes16_roundtrip (t : ℤ) (h1 : -32768 ≤ t) (h2 : t ≤ 32767) :
    bytesToInt16 (int16ToBytes t).1 (int16ToBytes t).2 = t := by
  simp only [bytesToInt16, int16ToBytes]
  split <;> omega

theorem ratTrunc_close (x : ℚ) : |(ratTrunc x : ℚ) - x| ≤ 1 := by
  unfold ratTrunc
  split
  · have hle : (⌊x⌋ : ℚ) ≤ x := Int.floor_le x
    have hgt : x - 1 < (⌊x⌋ : ℚ) := Int.sub_one_lt_floor x
    rw [abs_le]
    constructor <;> linarith
  · have hge : x ≤ (⌈x⌉ : ℚ) := Int.le_ceil x
    have hlt : (⌈x⌉ : ℚ) < x + 1 := Int.ceil_lt_add_one x
    rw [abs_le]
    constructor <;> linarith

theorem ratTrunc_bounds (x : ℚ) (h1 : -32768 ≤ x) (h2 : x < 32768) :
    -32768 ≤ ratTrunc x ∧ ratTrunc x ≤ 32767 := by
  unfold ratTrunc
  split
  · rename_i hx
    constructor
    · exact le_trans (by norm_num) (Int.floor_nonneg.mpr hx)
    · have : (⌊x⌋ : ℚ) ≤ x := Int.floor_le x
      have hq : (⌊x⌋ : ℚ) < 32768 := lt_of_le_of_lt this h2
      have : ⌊x⌋ < 32768 := by exact_mod_cast hq
      omega
  · rename_i hx
    push_neg at hx
    constructor
    · have : (-32768 : ℚ) ≤ (⌈x⌉ : ℚ) := le_trans h1 (Int.le_ceil x)
      exact_mod_cast this
    · have h0 : (⌈x⌉ : ℚ) < x + 1 := Int.ceil_lt_add_one x
      have : (⌈x⌉ : ℚ) < 1 := lt_trans h0 (by linarith)
      have : ⌈x⌉ < 1 := by exact_mod_cast this
      omega

/-- C7 counterexample: at the in-range sample `s = 1` the scaled value
32768 overflows `Int16Array` storage (wraps to -32768) and the round
trip returns -1, an error of 2 — far beyond one quantization step.  So
the claim is false as stated for all of [-1, 1]. -/
theorem c7_roundtrip_counterexample :
    pcmRoundTrip 1 = -1 ∧ ¬(|pcmRoundTrip 1 - 1| ≤ 1 / 32768) := by
  have h2 : ratTrunc (clamp1 1 * 32768) = 32768 := by
    norm_num [ratTrunc, clamp1]
  have h3 : createBlobSample 1 = -32768 := by
    simp only [createBlobSample, toInt16, h2]
    decide
  have h4 : int16ToBytes (-32768) = (0, 128) := by decide
  have h5 : bytesToInt16 0 128 = -32768 := by decide
  have h : pcmRoundTrip 1 = -1 := by
    simp only [pcmRoundTrip, h3, h4, h5, decodeSample]
    norm_num
  refine ⟨h, ?_⟩
  rw [h]
  norm_num

/-- C7 amended: for every sample `s` with `-1 ≤ s < 1` (excluding the
right endpoint, where int16 storage wraps), encoding with `createBlob`
and decoding with `decodeAudioData` recovers `s` within one
quantization step, 1/32768. -/
theorem c7_pcm_roundtrip_close (s : ℚ) (h1 : -1 ≤ s) (h2 : s < 1) :
    |pcmRoundTrip s - s| ≤ 1 / 32768 := by
  have hclamp : clamp1 s = s := by
    unfold clamp1
    rw [min_eq_right h2.le, max_eq_right h1]
  have hx1 : -32768 ≤ s * 32768 := by nlinarith
  have hx2 : s * 32768 < 32768 := by nlinarith
  obtain ⟨hb1, hb2⟩ := ratTrunc_bounds (s * 32768) hx1 hx2
  have hwrap : createBlobSample s = ratTrunc (s * 32768) := by
    simp only [createBlobSample, hclamp, toInt16]
    exact wrap16_eq _ hb1 hb2
  have hbytes : bytesToInt16 (int16ToBytes (createBlobSample s)).1
      (int16ToBytes (createBlobSample s)).2 = ratTrunc (s * 32768) := by
    rw [hwrap]
    exact bytes16_roundtrip _ hb1 hb2
  have hclose := ratTrunc_close (s * 32768)
  have : pcmRoundTrip s = (ratTrunc (s * 32768) : ℚ) / 32768 := by
    simp only [pcmRoundTrip, decodeSample, hbytes]
  rw [this]
  have key : (ratTrunc (s * 32768) : ℚ) / 32768 - s
      = ((ratTrunc (s * 32768) : ℚ) - s * 32768) / 32768 := by ring
  rw [key, abs_div]
  rw [abs_of_pos (by norm_num : (0 : ℚ) < 32768)]
  rw [div_le_div_iff₀ (by norm_num) (by norm_num)]
  have := mul_le_mul_of_nonneg_right hclose
    (by norm_num : (0 : ℚ) ≤ 32768)
  linarith

/-- Witness for the amended C7 at `s = 1/2` (recovered exactly). -/
theorem c7_pcm_roundtrip_close_witness :
    |pcmRoundTrip (1/2) - 1/2| ≤ 1 / 32768 :=
  c7_pcm_roundtrip_close (1/2) (by norm_num) (by norm_num)

/-! ## JSON values and JavaScript coercion helpers

The dynamic values flowing through `bibleDb.importData` and
`extractJSON` are JSON trees.  `Option Json` stands for a JS value that
may also be `undefined` (`none`). -/

inductive Json where
  | null
  | bool (b : Bool)
  | num (q : ℚ)
  | str (s : String)
  | arr (elems : List Json)
  | obj (fields : List (String × Json))

/-- Property read on an object (fields are unique, insertion order). -/
def jsonGet (j : Json) (k : String) : Option Json :=
  match j with
  | .obj fs => (fs.find? (fun p => p.1 == k)).map Prod.snd
  | _ => none

/-- JS truthiness of a possibly-`undefined` value. -/
def jsTruthy : Option Json → Bool
  | none => false
  | some .null => false
  | some (.bool b) => b
  | some (.num q) => q != 0
  | some (.str s) => s != ""
  | some (.arr _) => true
  | some (.obj _) => true

/-- JS `a || b`: `a` when truthy, otherwise `b`. -/
def jsOr (a b : Option Json) : Option Json :=
  if jsTruthy a then a else b

/-- Property read `base.k` with the JS `TypeError` on a `null` base;
property reads on other primitives and on arrays yield `undefined`. -/
def jsProp (base : Json) (k : String) : Except String (Option Json) :=
  match base with
  | .null => .error "TypeError: Cannot read properties of null"
  | .obj _ => .ok (jsonGet base k)
  | _ => .ok none

/-- `toString` for an integer rational as JS prints whole numbers. -/
def intToDecStr (z : ℤ) : String :=
  if z < 0 then "-" ++ toString z.natAbs else toString z.natAbs

/-- Decimal digits of the fractional part of a nonnegative rational,
by long division (`k` digits). -/
def fracDigitsAux (k : ℕ) (q : ℚ) : List Char :=
  match k with
  | 0 => []
  | k' + 1 =>
      if q = 0 then []
      else
        let q10 := q * 10
        let d := ⌊q10⌋
        (Char.ofNat (48 + d.toNat)) :: fracDigitsAux k' (q10 - (d : ℚ))

/-- `String(n)` for a JS number.  Integers print exactly as JS does;
for non-integers JS prints the shortest float-roundtrip decimal, which
this model approximates by up to 17 long-division digits (no claim
evaluates it on a non-integer). -/
def jsNumToString (n : JsNum) : String :=
  match n with
  | none => "NaN"
  | some q =>
      if q.den = 1 then intToDecStr q.num
      else
        (if q < 0 then "-" else "") ++
          intToDecStr ⌊|q|⌋ ++ "." ++ ⟨fracDigitsAux 17 (|q| - (⌊|q|⌋ : ℚ))⟩

/-- `String(x)` for a JSON value; array elements stringify recursively
with `null`s printed empty, as `Array.prototype.toString` does. -/
def jsToStringJ : Json → String
  | .null => "null"
  | .bool b => if b then "true" else "false"
  | .num q => jsNumToString (some q)
  | .str s => s
  | .arr l =>
      String.intercalate ","
        (l.attach.map (fun x =>
          match x with
          | ⟨.null, _⟩ => ""
          | ⟨v, _⟩ => jsToStringJ v))
  | .obj _ => "[object Object]"
termination_by j => sizeOf j
decreasing_by
  simp_wf
  rename_i hmem
  have := List.sizeOf_lt_of_mem hmem
  omega

/-- `String(x)` for a JSON/JS value (`none` = `undefined`). -/
def jsToString : Option Json → String
  | none => "undefined"
  | some v => jsToStringJ v

/-- Leading decimal digits of a char list, with the remainder. -/
def takeDigits : List Char → List ℕ × List Char
  | [] => ([], [])
  | c :: cs =>
      if c.isDigit then
        let p := takeDigits cs
        ((c.toNat - 48) :: p.1, p.2)
      else ([], c :: cs)

/-- Fold a digit list into a natural number. -/
def digitsToNat (ds : List ℕ) : ℕ :=
  ds.foldl (fun a d => 10 * a + d) 0

/-- `parseInt(s, 10)`: skip leading whitespace, optional sign, then
leading decimal digits; `none` (NaN) when no digit follows.  Trailing
garbage is ignored. -/
def parseIntJs (s : String) : Option ℤ :=
  let cs := s.data.dropWhile (fun c => jsWsChar c)
  let signed : Bool × List Char :=
    match cs with
    | '-' :: rest => (true, rest)
    | '+' :: rest => (false, rest)
    | _ => (false, cs)
  let p := takeDigits signed.2
  if p.1.isEmpty then none
  else some ((if signed.1 then -1 else 1) * (digitsToNat p.1 : ℤ))

/-- `Number(s)` for a string: trimmed empty string is 0; otherwise a
fully-consumed decimal literal with optional sign, fraction and
exponent; anything else is NaN.  (JS also accepts hex/binary literals
and `Infinity`, which this model maps to NaN; no claim exercises
them.) -/
def jsStringToNumber (s : String) : JsNum :=
  let cs := (s.data.dropWhile (fun c => jsWsChar c)).reverse
    |>.dropWhile (fun c => jsWsChar c) |>.reverse
  if cs.isEmpty then some 0
  else
    let signed : ℚ × List Char :=
      match cs with
      | '-' :: rest => (-1, rest)
      | '+' :: rest => (1, rest)
      | _ => (1, cs)
    let ip := takeDigits signed.2
    let fp : Option (List ℕ × List Char) :=
      match ip.2 with
      | '.' :: rest => some (takeDigits rest)
      | _ => none
    let afterFrac := match fp with | some p => p.2 | none => ip.2
    let hasDigits := !ip.1.isEmpty || (match fp with
      | some p => !p.1.isEmpty
      | none => false)
    let ex : Option (ℤ × List Char) :=
      match afterFrac with
      | 'e' :: rest | 'E' :: rest =>
          let esigned : ℤ × List Char :=
            match rest with
            | '-' :: r2 => (-1, r2)
            | '+' :: r2 => (1, r2)
            | _ => (1, rest)
          let ep := takeDigits esigned.2
          if ep.1.isEmpty then none
          else some (esigned.1 * (digitsToNat ep.1 : ℤ), ep.2)
      | _ => none
    let remaining := match ex with | some p => p.2 | none => afterFrac
    let okExp := match afterFrac with
      | 'e' :: _ | 'E' :: _ => ex.isSome
      | _ => true
    if !hasDigits || !remaining.isEmpty || !okExp then none
    else
      let fracDs := match fp with | some p => p.1 | none => []
      let mant : ℚ := (digitsToNat ip.1 : ℚ) +
        (digitsToNat fracDs : ℚ) / ((10 : ℚ) ^ fracDs.length)
      let e : ℤ := match ex with | some p => p.1 | none => 0
      some (signed.1 * mant * (10 : ℚ) ^ e)

/-- `Number(x)` coercion (`none` result = NaN).  Arrays and plain
objects are modelled as NaN (JS stringifies them first; no claim
exercises that corner). -/
def jsNumber : Option Json → JsNum
  | none => none
  | some .null => some 0
  | some (.bool b) => some (if b then 1 else 0)
  | some (.num q) => some q
  | some (.str s) => jsStringToNumber s
  | some (.arr _) => none
  | some (.obj _) => none

/-- `Math.floor` (NaN-propagating). -/
def jsFloor : JsNum → JsNum
  | none => none
  | some q => some ((⌊q⌋ : ℤ) : ℚ)

/-- `s.toLowerCase()` (ASCII case mapping; the strings compared through
it in this codebase are ASCII or Chinese, where JS and this model
agree). -/
def jsToLower (s : String) : String :=
  ⟨s.data.map Char.toLower⟩

/-- One entry of the static book table (`constants.ts`). -/
structure Book where
  id : String
  name : String
  englishName : String
  category : String
  chapterCount : ℕ
deriving DecidableEq, Repr

/-- `ALL_BOOKS` (`constants.ts`): the 66 canonical books. -/
def ALL_BOOKS : List Book := [
  ⟨"gen", "創世記", "Genesis", "Old Testament", 50⟩,
  ⟨"exo", "出埃及記", "Exodus", "Old Testament", 40⟩,
  ⟨"lev", "利未記", "Leviticus", "Old Testament", 27⟩,
  ⟨"num", "民數記", "Numbers", "Old Testament", 36⟩,
  ⟨"deu", "申命記", "Deuteronomy", "Old Testament", 34⟩,
  ⟨"jos", "約書亞記", "Joshua", "Old Testament", 24⟩,
  ⟨"jdg", "士師記", "Judges", "Old Testament", 21⟩,
  ⟨"rut", "路得記", "Ruth", "Old Testament", 4⟩,
  ⟨"1sa", "撒母耳記上", "1 Samuel", "Old Testament", 31⟩,
  ⟨"2sa", "撒母耳記下", "2 Samuel", "Old Testament", 24⟩,
  ⟨"1ki", "列王紀上", "1 Kings", "Old Testament", 22⟩,
  ⟨"2ki", "列王紀下", "2 Kings", "Old Testament", 25⟩,
  ⟨"1ch", "歷代志上", "1 Chronicles", "Old Testament", 29⟩,
  ⟨"2ch", "歷代志下", "2 Chronicles", "Old Testament", 36⟩,
  ⟨"ezr", "以斯拉記", "Ezra", "Old Testament", 10⟩,
  ⟨"neh", "尼希米記", "Nehemiah", "Old Testament", 13⟩,
  ⟨"est", "以斯帖記", "Esther", "Old Testament", 10⟩,
  ⟨"job", "約伯記", "Job", "Old Testament", 42⟩,
  ⟨"psa", "詩篇", "Psalms", "Old Testament", 150⟩,
  ⟨"pro", "箴言", "Proverbs", "Old Testament", 31⟩,
  ⟨"ecc", "傳道書", "Ecclesiastes", "Old Testament", 12⟩,
  ⟨"sng", "雅歌", "Song of Songs", "Old Testament", 8⟩,
  ⟨"isa", "以賽亞書", "Isaiah", "Old Testament", 66⟩,
  ⟨"jer", "耶利米書", "Jeremiah", "Old Testament", 52⟩,
  ⟨"lam", "耶利米哀歌", "Lamentations", "Old Testament", 5⟩,
  ⟨"ezk", "以西結書", "Ezekiel", "Old Testament", 48⟩,
  ⟨"dan", "但以理書", "Daniel", "Old Testament", 12⟩,
  ⟨"hos", "何西阿書", "Hosea", "Old Testament", 14⟩,
  ⟨"jol", "約珥書", "Joel", "Old Testament", 3⟩,
  ⟨"amo", "阿摩司書", "Amos", "Old Testament", 9⟩,
  ⟨"oba", "俄巴底亞書", "Obadiah", "Old Testament", 1⟩,
  ⟨"jon", "約拿書", "Jonah", "Old Testament", 4⟩,
  ⟨"mic", "彌迦書", "Micah", "Old Testament", 7⟩,
  ⟨"nam", "那鴻書", "Nahum", "Old Testament", 3⟩,
  ⟨"hab", "哈巴谷書", "Habakkuk", "Old Testament", 3⟩,
  ⟨"zep", "西番雅書", "Zephaniah", "Old Testament", 3⟩,
  ⟨"hag", "哈該書", "Haggai", "Old Testament", 2⟩,
  ⟨"zec", "撒迦利亞書", "Zechariah", "Old Testament", 14⟩,
  ⟨"mal", "瑪拉基書", "Malachi", "Old Testament", 4⟩,
  ⟨"mat", "馬太福音", "Matthew", "New Testament", 28⟩,
  ⟨"mrk", "馬可福音", "Mark", "New Testament", 16⟩,
  ⟨"luk", "路加福音", "Luke", "New Testament", 24⟩,
  ⟨"jhn", "約翰福音", "John", "New Testament", 21⟩,
  ⟨"act", "使徒行傳", "Acts", "New Testament", 28⟩,
  ⟨"rom", "羅馬書", "Romans", "New Testament", 16⟩,
  ⟨"1co", "哥林多前書", "1 Corinthians", "New Testament", 16⟩,
  ⟨"2co", "哥林多後書", "2 Corinthians", "New Testament", 13⟩,
  ⟨"gal", "加拉太書", "Galatians", "New Testament", 6⟩,
  ⟨"eph", "以弗所書", "Ephesians", "New Testament", 6⟩,
  ⟨"php", "腓立比書", "Philippians", "New Testament", 4⟩,
  ⟨"col", "歌羅西書", "Colossians", "New Testament", 4⟩,
  ⟨"1th", "帖撒羅尼迦前書", "1 Thessalonians", "New Testament", 5⟩,
  ⟨"2th", "帖撒羅尼迦後書", "2 Thessalonians", "New Testament", 3⟩,
  ⟨"1ti", "提摩太前書", "1 Timothy", "New Testament", 6⟩,
  ⟨"2ti", "提摩太後書", "2 Timothy", "New Testament", 4⟩,
  ⟨"tit", "提多書", "Titus", "New Testament", 3⟩,
  ⟨"phm", "腓利門書", "Philemon", "New Testament", 1⟩,
  ⟨"heb", "希伯來書", "Hebrews", "New Testament", 13⟩,
  ⟨"jas", "雅各書", "James", "New Testament", 5⟩,
  ⟨"1pe", "彼得前書", "1 Peter", "New Testament", 5⟩,
  ⟨"2pe", "彼得後書", "2 Peter", "New Testament", 3⟩,
  ⟨"1jn", "約翰一書", "1 John", "New Testament", 5⟩,
  ⟨"2jn", "約翰二書", "2 John", "New Testament", 1⟩,
  ⟨"3jn", "約翰三書", "3 John", "New Testament", 1⟩,
  ⟨"jud", "猶大書", "Jude", "New Testament", 1⟩,
  ⟨"rev", "啟示錄", "Revelation", "New Testament", 22⟩
]

/-! ## Local store `bibleDb` (part_003 lines 1–230 for
`init`/`getChapter`/`getChapterCount`/`search`/`clear`;
`importData` from `src/src/services/liveService.ts` lines 342–483,
whose unavailability guard also appears at part_003 lines 176–186).
Claims C9, C10, C3, C1. -/

/-- The chapters object store, keys `"Book-Chapter"`; `none` models the
unavailable store (`!this.db || !this.isSupported` after `init`). -/
abbrev DbMap := List (String × List Verse)

abbrev Store := Option DbMap

/-- `store.get(key)`: `request.result || null`. -/
def dbLookup (m : DbMap) (k : String) : Option (List Verse) :=
  (m.find? (fun p => p.1 == k)).map Prod.snd

/-- `store.put(value, key)`: upsert by key. -/
def dbPut (m : DbMap) (k : String) (v : List Verse) : DbMap :=
  if m.any (fun p => p.1 == k) then
    m.map (fun p => if p.1 == k then (k, v) else p)
  else m ++ [(k, v)]

def applyWrites (m : DbMap) : List (String × List Verse) → DbMap
  | [] => m
  | w :: ws => applyWrites (dbPut m w.1 w.2) ws

/-- `bibleDb.init`: always resolves; an unsupported or blocked
environment only marks the store unavailable. -/
def dbInit (envSupported : Bool) : Except String Store :=
  .ok (if envSupported then some [] else none)

/-- `bibleDb.getChapter` (part_003 lines 68–96): unavailable store or
any transaction failure degrades to `null`. -/
def dbGetChapter (st : Store) (bookNameChi : String) (chapter : ℕ) :
    Except String (Option (List Verse)) :=
  match st with
  | none => .ok none
  | some m => .ok (dbLookup m (bookNameChi ++ "-" ++ toString chapter))

/-- `bibleDb.getChapterCount` (part_003 lines 98–115): degrades to 0. -/
def dbGetChapterCount (st : Store) : Except String ℕ :=
  match st with
  | none => .ok 0
  | some m => .ok m.length

/-- Index of the last `'-'` in a char list (`key.lastIndexOf('-')`),
`none` when absent. -/
def lastDashIdx (cs : List Char) : Option ℕ :=
  ((List.range cs.length).filter (fun i => cs.getD i ' ' == '-')).getLast?

/-- Scan of one store entry by `bibleDb.search` (part_003 lines
125–155): parse the key as `"Book-Chapter"` and keep the verses whose
text contains the query as a substring. -/
def searchEntry (query : String) (k : String) (verses : List Verse) :
    List SearchResult :=
  let cs := k.data
  let di : ℤ := match lastDashIdx cs with
    | some i => (i : ℤ)
    | none => -1
  let bookName : String := ⟨cs.take (max di 0).toNat⟩
  let chapterStr : String := ⟨cs.drop (di + 1).toNat⟩
  let chapter : JsNum := (parseIntJs chapterStr).map (fun z => (z : ℚ))
  (verses.filter (fun v => strIncl v.text query)).map
    (fun v => { book := bookName, chapter := chapter,
                verse := v.verse, text := v.text })

/-- The cursor walk of `bibleDb.search`: all matches over all stored
chapters, unbounded, in store order. -/
def dbSearchScan (m : DbMap) (query : String) : List SearchResult :=
  m.flatMap (fun p => searchEntry query p.1 p.2)

/-- `bibleDb.search` (part_003 lines 118–174): degrades to `[]`. -/
def dbSearch (st : Store) (query : String) :
    Except String (List SearchResult) :=
  match st with
  | none => .ok []
  | some m => .ok (dbSearchScan m query)

/-- `bibleDb.clear` (part_003 lines 225–230): silently returns when the
store is unavailable. -/
def dbClear (st : Store) : Except String Unit × Store :=
  match st with
  | none => (.ok (), none)
  | some _ => (.ok (), some [])

/-- The matcher of `importData` against the static book table
(liveService.ts lines 400–405). -/
def bookMatches (r : String) (b : Book) : Bool :=
  b.name == r || b.englishName == r ||
  jsToLower b.englishName == jsToLower r || b.id == r

/-- The regex test `/^[A-Za-z0-9\s]+$/.test(rawName)`
(liveService.ts line 410): nonempty, and every character is an ASCII
letter, an ASCII digit, or a JS whitespace character. -/
def asciiAlnumWsOnly (s : String) : Bool :=
  !s.isEmpty && s.data.all (fun c => c.isAlpha || c.isDigit || jsWsChar c)

/-- Modelled from the words of claim C10 (for comparison only): names
consisting only of ASCII letters, digits and the space character. -/
def claimAsciiAlnumSpace (s : String) : Bool :=
  !s.isEmpty && s.data.all (fun c => c.isAlpha || c.isDigit || c = ' ')

/-- Chapter list of a book entry (liveService.ts lines 417–424): an
array is used as is; an object is read in ascending `parseInt` key
order (stable sort, matching the numeric comparator). -/
def chaptersOf (chaptersVal : Json) : List Json :=
  match chaptersVal with
  | .arr l => l
  | .obj fs =>
      ((fs.map Prod.fst).mergeSort
          (fun a b => ((parseIntJs a).getD 0) ≤ ((parseIntJs b).getD 0))).map
        (fun k => (jsonGet (.obj fs) k).getD .null)
  | _ => []

/-- Verse (value, text) pairs of an object-shaped chapter
(liveService.ts lines 444–455): a `verses` array is used directly; with
no truthy `verses` field the numeric keys are used in ascending order. -/
def versesPairsOfObj (fs : List (String × Json)) :
    Except String (List (Option Json × Option Json)) :=
  match jsonGet (.obj fs) "verses" with
  | some (.arr vl) =>
      vl.mapM (fun v => do
        let vv ← jsProp v "verse"
        let tv ← jsProp v "text"
        pure (vv, tv))
  | _ =>
      if !jsTruthy (jsonGet (.obj fs) "verses") then
        let keys := (fs.map Prod.fst).filter
          (fun k => k != "chapter" && (parseIntJs k).isSome)
        let sorted := keys.mergeSort
          (fun a b => ((parseIntJs a).getD 0) ≤ ((parseIntJs b).getD 0))
        .ok (sorted.map (fun k =>
          (some (.str k), some ((jsonGet (.obj fs) k).getD .null))))
      else .ok []

/-- One chapter entry of `importData` (liveService.ts lines 426–463):
the chapter number to use and the verse objects. -/
def importChapter (chapterIdx : ℕ) (chapterContent : Json) :
    Except String (ℤ × List Verse) :=
  match chapterContent with
  | .arr l =>
      match l with
      | .str _ :: _ =>
          .ok ((chapterIdx : ℤ) + 1, l.enum.map (fun p =>
            { verse := some ((p.1 : ℚ) + 1),
              text := stripWs (jsToString (some p.2)) }))
      | _ => .ok ((chapterIdx : ℤ) + 1, [])
  | .obj fs => do
      let chapterNum : ℤ :=
        if jsTruthy (jsonGet (.obj fs) "chapter") then
          match parseIntJs (jsToString (jsonGet (.obj fs) "chapter")) with
          | some z => z
          | none => (chapterIdx : ℤ) + 1
        else (chapterIdx : ℤ) + 1
      let pairs ← versesPairsOfObj fs
      .ok (chapterNum, pairs.map (fun p =>
        { verse := (parseIntJs (jsToString p.1)).map (fun z => (z : ℚ)),
          text := if jsTruthy p.2 then stripWs (jsToString p.2) else "" }))
  | _ => .ok ((chapterIdx : ℤ) + 1, [])

/-- The chapter loop of `importData` for a book whose store name has
been resolved to `target` (liveService.ts lines 415–470): one write per
chapter with a nonempty verse list, keyed `"target-chapterNum"`. -/
def importBookNamed (target : String) (book : Json) :
    Except String (List (String × List Verse)) :=
  match jsProp book "chapters" with
  | .error e => .error e
  | .ok ch =>
    if !jsTruthy ch then .ok []
    else
      match (chaptersOf (ch.getD .null)).enum.mapM
          (fun p => importChapter p.1 p.2) with
      | .error e => .error e
      | .ok results =>
          .ok ((results.filter (fun r => !r.2.isEmpty)).map
            (fun r => (target ++ "-" ++ intToDecStr r.1, r.2)))

/-- `book.name || book.book || book.abbrev` (liveService.ts line
395). -/
def rawNameOf (book : Json) : Except String (Option Json) :=
  match jsProp book "name" with
  | .error e => .error e
  | .ok n =>
    match jsProp book "book" with
    | .error e => .error e
    | .ok bk =>
      match jsProp book "abbrev" with
      | .error e => .error e
      | .ok ab => .ok (jsOr (jsOr n bk) ab)

/-- One book entry of `importData` (liveService.ts lines 394–470): the
store writes it contributes, in order.  An unmatched raw name that the
regex `/^[A-Za-z0-9\s]+$/` accepts is skipped; any other unmatched name
is used verbatim as the store key prefix. -/
def importBook (book : Json) : Except String (List (String × List Verse)) :=
  match rawNameOf book with
  | .error e => .error e
  | .ok raw =>
    if !jsTruthy raw then .ok []
    else
      match raw with
      | some (.str r) =>
          match ALL_BOOKS.find? (fun b => bookMatches r b) with
          | some mb => importBookNamed mb.name book
          | none =>
              if asciiAlnumWsOnly r then .ok []
              else importBookNamed r book
      | _ => .error "TypeError: rawName.toLowerCase is not a function"

/-- Shape detection of `importData` (liveService.ts lines 365–392). -/
def booksToProcess (jsonData : Json) : Except String (List Json) :=
  match jsonData with
  | .arr l => .ok l
  | .obj fs =>
      match jsonGet jsonData "books" with
      | some (.arr l) => .ok l
      | booksVal =>
        match jsonGet jsonData "data" with
        | some (.arr l) => .ok l
        | _ =>
          if (jsTruthy (jsonGet jsonData "name")
                || jsTruthy (jsonGet jsonData "book"))
              && (match jsonGet jsonData "chapters" with
                  | some (.arr _) => true
                  | _ => false) then
            .ok [jsonData]
          else
            match booksVal with
            | some (.obj bfs) => .ok (bfs.map Prod.snd)
            | some .null => .error "TypeError: Cannot convert null to object"
            | _ =>
                .ok ((fs.map Prod.snd).filter (fun v =>
                  jsTruthy (some v) &&
                    (jsTruthy (jsonGet v "chapters")
                      || jsTruthy (jsonGet v "book")
                      || jsTruthy (jsonGet v "name"))))
  | _ => .ok []

/-- `bibleDb.importData` (liveService.ts lines 342–483; unavailability
guard identical at part_003 lines 176–178): throws when the store is
unavailable; otherwise detects the JSON shape, writes every resolvable
chapter, and rejects when no chapter was recognized.  A thrown error
aborts the transaction, discarding its writes. -/
def importData (st : Store) (jsonData : Json) : Except String ℕ × Store :=
  match st with
  | none =>
      (.error "您的瀏覽器不支援離線資料庫或權限被拒絕 (請嘗試關閉無痕模式)。", none)
  | some m =>
    match booksToProcess jsonData with
    | .error e => (.error e, some m)
    | .ok [] =>
        (.error "無法識別的 JSON 格式。請確認您下載的是正確的聖經檔案。", some m)
    | .ok books =>
      match books.mapM importBook with
      | .error e => (.error e, some m)
      | .ok writeLists =>
        let writes := writeLists.flatten
        if writes.isEmpty then
          (.error "沒有成功匯入任何章節，請檢查 JSON 檔案內容。", some m)
        else (.ok writes.length, some (applyWrites m writes))

/-! ### C9: local-store operations when the store is unavailable -/

/-- C9 counterexample: the claim says every store operation, including
`importData`, degrades to a miss/no-op when the store is unavailable;
but `importData` throws its browser-unsupported error past the store
boundary (`bibleDb.importData`, liveService.ts line 344 and part_003
line 178). -/
theorem c9_importdata_throws_counterexample :
    (importData none (Json.arr [Json.str "x"])).1
      = .error "您的瀏覽器不支援離線資料庫或權限被拒絕 (請嘗試關閉無痕模式)。" := rfl

/-- C9 amended: when the persistent store is unavailable or
unsupported, `init`, `getChapter`, `getChapterCount`, `search` and
`clear` never throw — they degrade to a resolve, `null`, `0`, `[]`, and
a silent return respectively — while `importData` alone throws a
browser-unsupported error to its caller. -/
theorem c9_store_unavailable_degrades (b : String) (c : ℕ) (q : String)
    (j : Json) :
    dbInit false = .ok none
    ∧ dbGetChapter none b c = .ok none
    ∧ dbGetChapterCount none = .ok 0
    ∧ dbSearch none q = .ok []
    ∧ (dbClear none).1 = .ok ()
    ∧ (importData none j).1
        = .error "您的瀏覽器不支援離線資料庫或權限被拒絕 (請嘗試關閉無痕模式)。" :=
  ⟨rfl, rfl, rfl, rfl, rfl, rfl⟩

/-! ### C10: unmatched book names in `importData` -/

theorem importBookNamed_keys (target : String) (book : Json)
    (ws : List (String × List Verse))
    (h : importBookNamed target book = .ok ws) :
    ∀ w ∈ ws, ∃ n : ℤ, w.1 = target ++ "-" ++ intToDecStr n := by
  intro w hw
  unfold importBookNamed at h
  split at h
  · exact Except.noConfusion h
  · split at h
    · injection h with h
      subst h
      simp at hw
    · split at h
      · exact Except.noConfusion h
      · injection h with h
        subst h
        simp only [List.mem_map] at hw
        obtain ⟨r, hr, hrw⟩ := hw
        exact ⟨r.1, by rw [← hrw]⟩

/-- C10 amended: in `importData`, a book entry whose raw name matches
no entry of the static table is silently skipped exactly when the name
is nonempty and consists only of characters of the regex class
`[A-Za-z0-9\s]` — ASCII letters, ASCII digits, or **JS whitespace**
(which includes non-ASCII whitespace such as U+00A0); any other
unmatched name is imported verbatim as the store key prefix. -/
theorem c10_unmatched_name_routing (book : Json) (r : String)
    (hraw : rawNameOf book = .ok (some (.str r)))
    (hr : r ≠ "")
    (hunm : ALL_BOOKS.find? (fun b => bookMatches r b) = none) :
    (asciiAlnumWsOnly r = true → importBook book = .ok [])
    ∧ (asciiAlnumWsOnly r = false →
        importBook book = importBookNamed r book
        ∧ ∀ ws, importBookNamed r book = .ok ws →
            ∀ w ∈ ws, ∃ n : ℤ, w.1 = r ++ "-" ++ intToDecStr n) := by
  have htr : jsTruthy (some (.str r)) = true := by
    simp [jsTruthy]
    intro hc
    exact absurd hc hr
  constructor
  · intro ha
    simp [importBook, hraw, htr, hunm, ha]
  · intro ha
    refine ⟨?_, fun ws h => importBookNamed_keys r book ws h⟩
    simp [importBook, hraw, htr, hunm, ha]

/-- The concrete book entry used to refute C10 as stated: its name is
three ASCII letters followed by a no-break space (U+00A0). -/
def c10CounterBook : Json :=
  Json.obj [("name", Json.str "Qqq "),
            ("chapters", Json.arr [Json.arr [Json.str "some verse text"]])]

/-- C10 counterexample: "Qqq " matches no static book entry and
contains a character (U+00A0) that is not an ASCII letter, digit or
space, so the claim as stated says it is imported verbatim under its
raw name; the code's regex `[A-Za-z0-9\s]` also accepts U+00A0, so the
code silently skips the book (zero writes), although processed verbatim
the same book would have produced one chapter write under the raw-name
key. -/
theorem c10_counterexample :
    ALL_BOOKS.find? (fun b => bookMatches "Qqq " b) = none
    ∧ claimAsciiAlnumSpace "Qqq " = false
    ∧ asciiAlnumWsOnly "Qqq " = true
    ∧ importBook c10CounterBook = .ok []
    ∧ (∃ vs, importBookNamed "Qqq " c10CounterBook
        = .ok [("Qqq -1", vs)]) := by
  exact ⟨rfl, rfl, rfl, by with_unfolding_all rfl,
    ⟨[⟨some 1, "someversetext"⟩], by with_unfolding_all rfl⟩⟩

/-- Witness for the amended C10 at a concrete unmatched Chinese-plus
name (skipped branch is exercised by the counterexample; here the
verbatim-import branch). -/
def c10WitnessBook : Json :=
  Json.obj [("name", Json.str "創世記甲"),
            ("chapters", Json.arr [Json.arr [Json.str "起初神創造天地"]])]

theorem c10_unmatched_name_routing_witness :
    importBook c10WitnessBook = importBookNamed "創世記甲" c10WitnessBook :=
  ((c10_unmatched_name_routing c10WitnessBook "創世記甲" rfl
      (by decide) rfl).2 rfl).1

/-! ## `JSON.parse` model

A strict JSON parser over char lists, fuel-recursive.  Numbers are kept
as exact rationals (JS rounds them to binary floats; the claims never
depend on that rounding).  Duplicate object keys keep the first
position with the last value, as JS object construction does. -/

def jsonWsChar (c : Char) : Bool :=
  c = ' ' || c = '\t' || c = '\n' || c = '\r'

def skipJsonWs (cs : List Char) : List Char :=
  cs.dropWhile jsonWsChar

def braceL : Char := Char.ofNat 123

def braceR : Char := Char.ofNat 125

def btick : Char := Char.ofNat 96

def hexVal (c : Char) : Option ℕ :=
  if c.isDigit then some (c.toNat - 48)
  else if 97 ≤ c.val && c.val ≤ 102 then some (c.toNat - 87)
  else if 65 ≤ c.val && c.val ≤ 70 then some (c.toNat - 55)
  else none

def takeDigitChars : List Char → List Char × List Char
  | [] => ([], [])
  | c :: cs =>
      if c.isDigit then
        let p := takeDigitChars cs
        (c :: p.1, p.2)
      else ([], c :: cs)

def digitCharsToNat (cs : List Char) : ℕ :=
  digitsToNat (cs.map (fun c => c.toNat - 48))

def objUpsert (fs : List (String × Json)) (k : String) (v : Json) :
    List (String × Json) :=
  if fs.any (fun p => p.1 == k) then
    fs.map (fun p => if p.1 == k then (k, v) else p)
  else fs ++ [(k, v)]

/-- JSON string contents after the opening quote: unescapes the
standard escapes, rejects raw control characters, and returns the rest
after the closing quote. -/
def parseJsonStringAux : ℕ → List Char → Option (List Char × List Char)
  | 0, _ => none
  | _, [] => none
  | fuel + 1, c :: cs =>
      if c = '"' then some ([], cs)
      else if c = '\\' then
        match cs with
        | [] => none
        | e :: cs2 =>
          let esc : Option (Char × List Char) :=
            if e = '"' then some ('"', cs2)
            else if e = '\\' then some ('\\', cs2)
            else if e = '/' then some ('/', cs2)
            else if e = 'b' then some ('\x08', cs2)
            else if e = 'f' then some ('\x0c', cs2)
            else if e = 'n' then some ('\n', cs2)
            else if e = 'r' then some ('\r', cs2)
            else if e = 't' then some ('\t', cs2)
            else if e = 'u' then
              match cs2 with
              | h1 :: h2 :: h3 :: h4 :: cs3 =>
                match hexVal h1, hexVal h2, hexVal h3, hexVal h4 with
                | some a, some b, some c2, some d =>
                    some (Char.ofNat (((a * 16 + b) * 16 + c2) * 16 + d), cs3)
                | _, _, _, _ => none
              | _ => none
            else none
          match esc with
          | none => none
          | some (ch, rest) =>
            match parseJsonStringAux fuel rest with
            | some (tail, rest2) => some (ch :: tail, rest2)
            | none => none
      else if c.val < 32 then none
      else
        match parseJsonStringAux fuel cs with
        | some (tail, rest2) => some (c :: tail, rest2)
        | none => none

/-- Build the rational value of a JSON number literal. -/
def mkNumVal (sgn : ℚ) (ip fd : List Char) (e : ℤ) : ℚ :=
  sgn * ((digitCharsToNat ip : ℚ) +
    (digitCharsToNat fd : ℚ) / (10 : ℚ) ^ fd.length) * (10 : ℚ) ^ e

/-- Optional exponent part of a JSON number. -/
def finishJsonNum (sgn : ℚ) (ip fd : List Char) (rest : List Char) :
    Option (ℚ × List Char) :=
  match rest with
  | 'e' :: r | 'E' :: r =>
    let es : ℤ × List Char :=
      match r with
      | '-' :: r2 => (-1, r2)
      | '+' :: r2 => (1, r2)
      | _ => (1, r)
    let ed := takeDigitChars es.2
    if ed.1.isEmpty then none
    else some (mkNumVal sgn ip fd (es.1 * (digitCharsToNat ed.1 : ℤ)), ed.2)
  | _ => some (mkNumVal sgn ip fd 0, rest)

/-- A JSON number literal at the head of the input (strict grammar: no
leading zeros, a fraction dot requires digits). -/
def parseJsonNumber (cs : List Char) : Option (ℚ × List Char) :=
  let sgn : ℚ × List Char :=
    match cs with
    | '-' :: r => (-1, r)
    | _ => (1, cs)
  let ip := takeDigitChars sgn.2
  if ip.1.isEmpty then none
  else if 1 < ip.1.length && ip.1.headD '1' = '0' then none
  else
    match ip.2 with
    | '.' :: r =>
      let fd := takeDigitChars r
      if fd.1.isEmpty then none
      else finishJsonNum sgn.1 ip.1 fd.1 fd.2
    | _ => finishJsonNum sgn.1 ip.1 [] ip.2

mutual

/-- One JSON value at the head of the input (after whitespace). -/
def parseJsonVal : ℕ → List Char → Option (Json × List Char)
  | 0, _ => none
  | fuel + 1, cs0 =>
    match skipJsonWs cs0 with
    | [] => none
    | c :: rest =>
      if c = braceL then
        match skipJsonWs rest with
        | c2 :: r2 =>
            if c2 = braceR then some (.obj [], r2)
            else parseJsonMembers fuel rest []
        | [] => none
      else if c = '[' then
        match skipJsonWs rest with
        | ']' :: r2 => some (.arr [], r2)
        | _ => parseJsonItems fuel rest []
      else if c = '"' then
        match parseJsonStringAux rest.length rest with
        | some (content, r2) => some (.str ⟨content⟩, r2)
        | none => none
      else if c = 't' then
        if rest.take 3 = ['r', 'u', 'e'] then some (.bool true, rest.drop 3)
        else none
      else if c = 'f' then
        if rest.take 4 = ['a', 'l', 's', 'e'] then some (.bool false, rest.drop 4)
        else none
      else if c = 'n' then
        if rest.take 3 = ['u', 'l', 'l'] then some (.null, rest.drop 3)
        else none
      else
        match parseJsonNumber (c :: rest) with
        | some (q, r2) => some (.num q, r2)
        | none => none

/-- Comma-separated array items up to `]`. -/
def parseJsonItems : ℕ → List Char → List Json → Option (Json × List Char)
  | 0, _, _ => none
  | fuel + 1, cs, acc =>
    match parseJsonVal fuel cs with
    | none => none
    | some (v, rest) =>
      match skipJsonWs rest with
      | ',' :: r2 => parseJsonItems fuel r2 (acc ++ [v])
      | ']' :: r2 => some (.arr (acc ++ [v]), r2)
      | _ => none

/-- Comma-separated object members up to the closing brace. -/
def parseJsonMembers : ℕ → List Char → List (String × Json) →
    Option (Json × List Char)
  | 0, _, _ => none
  | fuel + 1, cs, acc =>
    match skipJsonWs cs with
    | '"' :: r1 =>
      match parseJsonStringAux r1.length r1 with
      | none => none
      | some (key, r2) =>
        match skipJsonWs r2 with
        | ':' :: r3 =>
          match parseJsonVal fuel r3 with
          | none => none
          | some (v, r4) =>
            let acc2 := objUpsert acc ⟨key⟩ v
            match skipJsonWs r4 with
            | ',' :: r5 => parseJsonMembers fuel r5 acc2
            | c :: r5 =>
                if c = braceR then some (.obj acc2, r5) else none
            | [] => none
        | _ => none
    | _ => none

end

/-- `JSON.parse`: parse one value, then only whitespace may remain. -/
def jsonParse (s : String) : Option Json :=
  match parseJsonVal (2 * s.length + 2) s.data with
  | some (v, rest) => if (skipJsonWs rest).isEmpty then some v else none
  | none => none

/-! ## `extractJSON` (part_003 lines 338–421)

The tolerant response parser: numeric pre-sanitization, then six
parse strategies in order. -/

/-- Match `"label"\s*:\s*(\d+)\.0+` at the head of the input: returns
the captured digits and the remainder after the match. -/
def matchLabelFloat (label : List Char) (cs : List Char) :
    Option (List Char × List Char) :=
  let lit := '"' :: (label ++ ['"'])
  if lit.isPrefixOf cs then
    let r1 := (cs.drop lit.length).dropWhile (fun c => jsWsChar c)
    match r1 with
    | ':' :: r2 =>
      let r3 := r2.dropWhile (fun c => jsWsChar c)
      let dg := takeDigitChars r3
      if dg.1.isEmpty then none
      else
        match dg.2 with
        | '.' :: r4 =>
          let zs := r4.takeWhile (fun c => c = '0')
          if zs.isEmpty then none
          else some (dg.1, r4.drop zs.length)
        | _ => none
    | _ => none
  else none

/-- Global replace of `"label"\s*:\s*(\d+)\.0+` by `"label": $1`
(the `"verse"`/`"chapter"` float fix of `extractJSON`). -/
def replaceLabelFloats (label : List Char) : ℕ → List Char → List Char
  | 0, cs => cs
  | _ + 1, [] => []
  | fuel + 1, c :: rest =>
    match matchLabelFloat label (c :: rest) with
    | some (digits, after) =>
        ('"' :: (label ++ ['"', ':', ' '])) ++ digits ++
          replaceLabelFloats label fuel after
    | none => c :: replaceLabelFloats label fuel rest

/-- Match `:\s*(\d{15,})` at the head of the input. -/
def matchHugeNum (cs : List Char) : Option (List Char × List Char) :=
  match cs with
  | ':' :: r1 =>
    let r2 := r1.dropWhile (fun c => jsWsChar c)
    let ds := r2.takeWhile (fun c => c.isDigit)
    if 15 ≤ ds.length then some (ds, r2.drop ds.length) else none
  | _ => none

/-- Global replace of `:\s*(\d{15,})` by `: $1`. -/
def replaceHugeNums : ℕ → List Char → List Char
  | 0, cs => cs
  | _ + 1, [] => []
  | fuel + 1, c :: rest =>
    match matchHugeNum (c :: rest) with
    | some (ds, after) => (':' :: ' ' :: ds) ++ replaceHugeNums fuel after
    | none => c :: replaceHugeNums fuel rest

/-- The full numeric pre-sanitization of `extractJSON`
(part_003 lines 342–348). -/
def sanitizeNums (cs : List Char) : List Char :=
  let s1 := replaceLabelFloats ['v', 'e', 'r', 's', 'e'] cs.length cs
  let s2 := replaceLabelFloats ['c', 'h', 'a', 'p', 't', 'e', 'r'] s1.length s1
  replaceHugeNums s2.length s2

/-- Global removal of markdown fences: the regex
`\x60\x60\x60json\s*|\x60\x60\x60` replaced by the empty string. -/
def stripFences : ℕ → List Char → List Char
  | 0, cs => cs
  | _ + 1, [] => []
  | fuel + 1, c :: rest =>
    if [btick, btick, btick, 'j', 's', 'o', 'n'].isPrefixOf (c :: rest) then
      stripFences fuel (((c :: rest).drop 7).dropWhile (fun ch => jsWsChar ch))
    else if [btick, btick, btick].isPrefixOf (c :: rest) then
      stripFences fuel ((c :: rest).drop 3)
    else c :: stripFences fuel rest

/-- `String.prototype.trim`. -/
def jsTrim (cs : List Char) : List Char :=
  ((cs.dropWhile (fun c => jsWsChar c)).reverse.dropWhile
    (fun c => jsWsChar c)).reverse

def firstIdxOf (cs : List Char) (c : Char) : Option ℕ :=
  ((List.range cs.length).filter (fun i => cs.getD i ' ' == c)).head?

def lastIdxOf (cs : List Char) (c : Char) : Option ℕ :=
  ((List.range cs.length).filter (fun i => cs.getD i ' ' == c)).getLast?

/-- `s.substring(a, b)` (swapping and clamping as JS does). -/
def jsSubstring (cs : List Char) (a b : ℕ) : List Char :=
  (cs.drop (min a b)).take (max a b - min a b)

/-- Match `,\s*X` for a closing delimiter `X` at the head. -/
def matchCommaClose (close : Char) (cs : List Char) : Option (List Char) :=
  match cs with
  | ',' :: r =>
    let r2 := r.dropWhile (fun c => jsWsChar c)
    match r2 with
    | c :: r3 => if c = close then some r3 else none
    | [] => none
  | _ => none

/-- Global replace of `,\s*X` by `X` (trailing-comma cleanup). -/
def stripTrailingCommas (close : Char) : ℕ → List Char → List Char
  | 0, cs => cs
  | _ + 1, [] => []
  | fuel + 1, c :: rest =>
    match matchCommaClose close (c :: rest) with
    | some after => close :: stripTrailingCommas close fuel after
    | none => c :: stripTrailingCommas close fuel rest

/-- The body `((?:[^"\x22\\]|\\.)*)` of the verse regex followed by the
closing quote: raw capture (escapes kept), remainder after the quote. -/
def takeStrBody : ℕ → List Char → Option (List Char × List Char)
  | 0, _ => none
  | _, [] => none
  | fuel + 1, c :: cs =>
    if c = '"' then some ([], cs)
    else if c = '\\' then
      match cs with
      | x :: t =>
        if x = '\n' || x = '\r' || x.val = 0x2028 || x.val = 0x2029 then none
        else
          match takeStrBody fuel t with
          | some (content, rest) => some (c :: x :: content, rest)
          | none => none
      | [] => none
    else
      match takeStrBody fuel cs with
      | some (content, rest) => some (c :: content, rest)
      | none => none

/-- The tail of the verse-record regex after the verse number:
`"?\s*,\s*"text"\s*:\s*"` — returns the string body start. -/
def matchVerseTail (rr : List Char) : Option (List Char) :=
  let rr1 := match rr with
    | '"' :: t => t
    | _ => rr
  let rr2 := rr1.dropWhile (fun c => jsWsChar c)
  match rr2 with
  | ',' :: rr3 =>
    let rr4 := rr3.dropWhile (fun c => jsWsChar c)
    if ['"', 't', 'e', 'x', 't', '"'].isPrefixOf rr4 then
      let rr5 := (rr4.drop 6).dropWhile (fun c => jsWsChar c)
      match rr5 with
      | ':' :: rr6 =>
        let rr7 := rr6.dropWhile (fun c => jsWsChar c)
        match rr7 with
        | '"' :: body => some body
        | _ => none
      | _ => none
    else none
  | _ => none

/-- The last-resort verse regex of `extractJSON` (part_003 line 393):
`"verse"\s*:\s*"?(\d+)(\.0+)?"?\s*,\s*"text"\s*:\s*"((?:[^"\\]|\\.)*)"`
matched at the head; returns (digit capture, raw text capture,
remainder). -/
def matchVerseRecord (cs : List Char) :
    Option (List Char × List Char × List Char) :=
  if ['"', 'v', 'e', 'r', 's', 'e', '"'].isPrefixOf cs then
    let r1 := (cs.drop 7).dropWhile (fun c => jsWsChar c)
    match r1 with
    | ':' :: r2 =>
      let r3 := r2.dropWhile (fun c => jsWsChar c)
      let r4 := match r3 with
        | '"' :: t => t
        | _ => r3
      let dg := takeDigitChars r4
      if dg.1.isEmpty then none
      else
        let afterNum : Option (List Char) :=
          match dg.2 with
          | '.' :: rz =>
            let zs := rz.takeWhile (fun c => c = '0')
            if zs.isEmpty then matchVerseTail dg.2
            else
              match matchVerseTail (rz.drop zs.length) with
              | some b => some b
              | none => matchVerseTail dg.2
          | _ => matchVerseTail dg.2
        match afterNum with
        | none => none
        | some body =>
          match takeStrBody body.length body with
          | some (content, rest) => some (dg.1, content, rest)
          | none => none
    | _ => none
  else none

/-- Global scan with the verse-record regex, in input order. -/
def extractVerseRecords : ℕ → List Char → List (List Char × List Char)
  | 0, _ => []
  | _ + 1, [] => []
  | fuel + 1, c :: rest =>
    match matchVerseRecord (c :: rest) with
    | some (dg, content, after) =>
        (dg, content) :: extractVerseRecords fuel after
    | none => extractVerseRecords fuel rest

/-- Build the `\x7b verses: [...] \x7d` object of step 6 from the regex
captures: records sorted by verse number ascending (stable). -/
def verseRecordsJson (recs : List (List Char × List Char)) : Json :=
  let vs := recs.map (fun p => ((digitCharsToNat p.1 : ℤ), p.2))
  let sorted := vs.mergeSort (fun a b => a.1 ≤ b.1)
  Json.obj [("verses", Json.arr (sorted.map (fun p =>
    Json.obj [("verse", Json.num (p.1 : ℚ)), ("text", Json.str ⟨p.2⟩)])))]

inductive ExtractMode where
  | verses
  | search
deriving DecidableEq, Repr

/-- Steps 5 (bracket fallback) and 6 (verse regex, verses mode only) of
`extractJSON`, and the final parse failure. -/
def extractTail (cleaned sanitized : List Char) (mode : ExtractMode) :
    Except String Json :=
  let bracketTry : Option Json :=
    match firstIdxOf cleaned '[', lastIdxOf cleaned ']' with
    | some fb, some lb =>
      match jsonParse ⟨jsSubstring cleaned fb (lb + 1)⟩ with
      | some (.arr l) =>
          some (match mode with
            | .verses => Json.obj [("verses", Json.arr l)]
            | .search => Json.obj [("results", Json.arr l)])
      | some j =>
          some (match mode with
            | .verses => Json.obj [("verses", j)]
            | .search => Json.obj [("results", j)])
      | none => none
    | _, _ => none
  match bracketTry with
  | some j => .ok j
  | none =>
    match mode with
    | .verses =>
      let recs := extractVerseRecords sanitized.length sanitized
      if recs.isEmpty then .error "AI 資料格式錯誤，請重試或使用離線模式。"
      else .ok (verseRecordsJson recs)
    | .search => .error "AI 資料格式錯誤，請重試或使用離線模式。"

/-- `extractJSON` (part_003 lines 338–421): numeric pre-sanitization,
then direct parse, fence-stripped parse, outer-object parse, trailing
comma cleanup, outer-array wrap, and the verse-regex last resort. -/
def extractJSON (text : String) (mode : ExtractMode) : Except String Json :=
  if text = "" then .error "Empty response from AI"
  else
    let sanitized := sanitizeNums text.data
    match jsonParse ⟨sanitized⟩ with
    | some j => .ok j
    | none =>
      let cleaned := jsTrim (stripFences sanitized.length sanitized)
      match jsonParse ⟨cleaned⟩ with
      | some j => .ok j
      | none =>
        match firstIdxOf cleaned braceL, lastIdxOf cleaned braceR with
        | some fb, some lb =>
          let candidate := jsSubstring cleaned fb (lb + 1)
          match jsonParse ⟨candidate⟩ with
          | some j => .ok j
          | none =>
            let cand2 := stripTrailingCommas ']' candidate.length
              (stripTrailingCommas braceR candidate.length candidate)
            match jsonParse ⟨cand2⟩ with
            | some j => .ok j
            | none => extractTail cleaned sanitized mode
        | _, _ => extractTail cleaned sanitized mode

/-! ## `withRetry` (part_003 lines 297–335; claim C2) -/

/-- A thrown JS error as `withRetry` inspects it:
`error.message || ''` and `error.status || ''`. -/
structure JsError where
  message : String
  status : String
deriving DecidableEq, Repr

/-- The terminal-error classification of `withRetry`, in source order
(expired key; leaked/blocked key; exhausted quota; missing/invalid
key).  `apiKeyMissing` models `API_KEY === 'MISSING_KEY'`.  Returns the
user-facing remediation message thrown, or `none` for a transient
error. -/
def classifyTerminal (apiKeyMissing : Bool) (e : JsError) : Option String :=
  if strIncl e.message "expired" then
    some "API Key 已過期 (Expired)。請前往 Google AI Studio 申請新金鑰，並在 Vercel 重新部署 (Redeploy)。"
  else if strIncl e.message "leaked" || strIncl e.message "403" ||
      e.status == "PERMISSION_DENIED" then
    some "API Key 已被 Google 封鎖 (偵測到外洩)。請更換金鑰並重新部署。"
  else if strIncl e.message "429" || e.status == "RESOURCE_EXHAUSTED" ||
      strIncl e.message "quota" then
    some "AI 配額已滿 (Quota Exceeded)。請使用「設定」匯入離線聖經檔案，即可完全免費用。"
  else if apiKeyMissing || strIncl e.message "API key" ||
      strIncl e.message "400" || e.status == "INVALID_ARGUMENT" then
    some "API Key 無效。請檢查 Vercel 環境變數 VITE_API_KEY 是否正確，並務必執行 Redeploy。"
  else none

/-- Outcome of `withRetry`: a remediation error thrown by the terminal
classification, or the raw last error rethrown after the final attempt
(`none` models `throw undefined` when `retries = 0`). -/
inductive RetryErr where
  | remediation (msg : String)
  | raw (e : Option JsError)
deriving DecidableEq, Repr

/-- The retry loop of `withRetry`: `i` is the next attempt index,
`fuel` the remaining iterations of `for (let i = 0; i < retries; i++)`.
Returns (outcome, attempts made, inter-attempt delays in ms, in
order). -/
def withRetryGo {α : Type} (akm : Bool) (op : ℕ → Except JsError α)
    (baseDelay : ℕ) : ℕ → ℕ → Option JsError →
    Except RetryErr α × ℕ × List ℕ
  | i, 0, last => (.error (.raw last), i, [])
  | i, fuel + 1, _ =>
    match op i with
    | .ok v => (.ok v, i + 1, [])
    | .error e =>
      match classifyTerminal akm e with
      | some msg => (.error (.remediation msg), i + 1, [])
      | none =>
        if fuel = 0 then (.error (.raw (some e)), i + 1, [])
        else
          let r := withRetryGo akm op baseDelay (i + 1) fuel (some e)
          (r.1, r.2.1, baseDelay * 2 ^ i :: r.2.2)

/-- `withRetry(operation, retries, baseDelay)` (part_003 lines
297–335): the call sites use `retries = 2`, `baseDelay = 1000`. -/
def withRetry {α : Type} (akm : Bool) (op : ℕ → Except JsError α)
    (retries baseDelay : ℕ) : Except RetryErr α × ℕ × List ℕ :=
  withRetryGo akm op baseDelay 0 retries none

theorem withRetryGo_all_transient {α : Type} (akm : Bool)
    (op : ℕ → Except JsError α) (d : ℕ) (es : ℕ → JsError) :
    ∀ (fuel i : ℕ) (last : Option JsError), 1 ≤ fuel →
    (∀ j, i ≤ j → j < i + fuel →
      op j = .error (es j) ∧ classifyTerminal akm (es j) = none) →
    withRetryGo akm op d i fuel last
      = (.error (.raw (some (es (i + fuel - 1)))), i + fuel,
         (List.range (fuel - 1)).map (fun k => d * 2 ^ (i + k))) := by
  intro fuel
  induction fuel with
  | zero => intro i last h; omega
  | succ f ih =>
    intro i last _ hall
    have hi := hall i (le_refl i) (by omega)
    match f, ih with
    | 0, _ =>
      simp [withRetryGo, hi.1, hi.2]
    | f' + 1, ih =>
      have hrec := ih (i + 1) (some (es i)) (by omega)
        (by intro j h1 h2; exact hall j (by omega) (by omega))
      have hidx : i + 1 + (f' + 1) - 1 = i + (f' + 1 + 1) - 1 := by omega
      conv_lhs => rw [withRetryGo]
      rw [hi.1]
      simp only [hi.2]
      rw [if_neg (Nat.succ_ne_zero f'), hrec]
      simp only [Prod.mk.injEq]
      refine ⟨by rw [hidx], by omega, ?_⟩
      simp only [Nat.add_sub_cancel]
      rw [List.range_succ_eq_map]
      simp only [List.map_cons, List.map_map, Function.comp_def]
      congr 1
      apply List.map_congr_left
      intro a _
      have hba : i + 1 + a = i + a.succ := by omega
      rw [hba]

/-- C2: `withRetry` at its call-site parameters (2 attempts, 1000 ms
base delay).  A first-attempt terminal error (expired, leaked/blocked
or invalid credential, exhausted quota) rethrows the remediation
message immediately: 1 attempt, no inter-attempt delay.  A transient
first error waits 1000 ms and retries: a second-attempt success returns
it after exactly the one backoff delay; a second-attempt terminal error
rethrows its remediation message; a second transient error is rethrown
raw as the last error.  In general, all-transient runs at `retries = r`
wait `baseDelay * 2^i` between attempts i and i+1 — exponentially
increasing backoff. -/
theorem c2_withRetry_policy :
    (∀ (α : Type) (akm : Bool) (op : ℕ → Except JsError α) e msg,
      op 0 = .error e → classifyTerminal akm e = some msg →
      withRetry akm op 2 1000 = (.error (.remediation msg), 1, []))
    ∧ (∀ (α : Type) (akm : Bool) (op : ℕ → Except JsError α) e (v : α),
      op 0 = .error e → classifyTerminal akm e = none → op 1 = .ok v →
      withRetry akm op 2 1000 = (.ok v, 2, [1000]))
    ∧ (∀ (α : Type) (akm : Bool) (op : ℕ → Except JsError α) e e2 msg,
      op 0 = .error e → classifyTerminal akm e = none →
      op 1 = .error e2 → classifyTerminal akm e2 = some msg →
      withRetry akm op 2 1000 = (.error (.remediation msg), 2, [1000]))
    ∧ (∀ (α : Type) (akm : Bool) (op : ℕ → Except JsError α) e e2,
      op 0 = .error e → classifyTerminal akm e = none →
      op 1 = .error e2 → classifyTerminal akm e2 = none →
      withRetry akm op 2 1000 = (.error (.raw (some e2)), 2, [1000]))
    ∧ (∀ (α : Type) (akm : Bool) (op : ℕ → Except JsError α)
        (r d : ℕ) (es : ℕ → JsError),
      1 ≤ r →
      (∀ j, j < r →
        op j = .error (es j) ∧ classifyTerminal akm (es j) = none) →
      withRetry akm op r d
        = (.error (.raw (some (es (r - 1)))), r,
           (List.range (r - 1)).map (fun i => d * 2 ^ i))) := by
  refine ⟨?_, ?_, ?_, ?_, ?_⟩
  · intro α akm op e msg h0 hc
    simp [withRetry, withRetryGo, h0, hc]
  · intro α akm op e v h0 hc h1
    simp [withRetry, withRetryGo, h0, hc, h1]
  · intro α akm op e e2 msg h0 hc h1 hc2
    simp [withRetry, withRetryGo, h0, hc, h1, hc2]
  · intro α akm op e e2 h0 hc h1 hc2
    simp [withRetry, withRetryGo, h0, hc, h1, hc2]
  · intro α akm op r d es hr hall
    have := withRetryGo_all_transient akm op d es r 0 none hr
      (by intro j h1 h2; exact hall j (by omega))
    simpa using this

/-- A concrete transient-then-success run for the C2 witness. -/
def c2Op : ℕ → Except JsError ℕ :=
  fun i => if i = 0 then .error ⟨"boom", ""⟩ else .ok 7

/-- Witness for C2: a transient first failure is retried after a
single 1000 ms backoff and the second attempt's value is returned. -/
theorem c2_withRetry_policy_witness :
    withRetry false c2Op 2 1000 = (.ok 7, 2, [1000]) :=
  c2_withRetry_policy.2.1 ℕ false c2Op ⟨"boom", ""⟩ 7 rfl (by decide) rfl

/-! ## `fetchFromPublicApi` (part_003 lines 508–529; claim C8) -/

/-- A request as issued by the pipeline: URL plus the optional
`AbortSignal.timeout` budget. -/
structure HttpRequest where
  url : String
  timeoutMs : Option ℕ
deriving DecidableEq, Repr

def hexDigit (n : ℕ) : Char :=
  if n < 10 then Char.ofNat (48 + n) else Char.ofNat (55 + n)

/-- The characters `encodeURIComponent` leaves unescaped. -/
def uriUnreserved (c : Char) : Bool :=
  c.isAlpha || c.isDigit || c = '-' || c = '_' || c = '.' || c = '!' ||
  c = '~' || c = '*' || c.val = 39 || c = '(' || c = ')'

/-- `encodeURIComponent`: percent-encode every reserved character
byte-wise over its UTF-8 encoding. -/
def encodeURIComponent (s : String) : String :=
  ⟨s.data.flatMap (fun c =>
    if uriUnreserved c then [c]
    else (String.toUTF8 ⟨[c]⟩).toList.flatMap (fun b =>
      ['%', hexDigit (b.toNat / 16), hexDigit (b.toNat % 16)]))⟩

/-- The request built by `fetchFromPublicApi` (part_003 lines 509–515):
GET `https://bible-api.com/BOOK+CHAPTER?translation=cuv` with
`AbortSignal.timeout(8000)`. -/
def fetchFromPublicApiRequest (book : String) (chapter : ℕ) : HttpRequest :=
  { url := "https://bible-api.com/" ++ encodeURIComponent book ++ "+" ++
      toString chapter ++ "?translation=cuv",
    timeoutMs := some 8000 }

/-- An HTTP response as the pipeline observes it; `body = none` models
a body that `response.json()` rejects. -/
structure HttpResponse where
  ok : Bool
  status : ℕ
  body : Option Json

/-- One element of `data.verses` (part_003 lines 525–528): the raw
`verse` value is stored as is (non-numeric payloads are modelled as
NaN), the text is whitespace-stripped and must be a string. -/
def apiVerseOfJson (v : Json) : Except String Verse :=
  match jsProp v "verse" with
  | .error e => .error e
  | .ok vv =>
    match jsProp v "text" with
    | .error e => .error e
    | .ok (some (.str t)) =>
        .ok { verse := match vv with
                | some (.num q) => some q
                | _ => none,
              text := stripWs t }
    | .ok _ => .error "TypeError: v.text.replace is not a function"

/-- Response handling of `fetchFromPublicApi` (part_003 lines 517–528):
a rejected fetch (`none`: network failure or the 8 s timeout), a
non-OK status, an unparseable body, or a missing/falsy `verses` field
all fail; only a verses array yields verses. -/
def fetchFromPublicApi (resp : Option HttpResponse) :
    Except String (List Verse) :=
  match resp with
  | none => .error "TimeoutError: signal timed out"
  | some r =>
    if !r.ok then
      if r.status = 404 then .error "Book/Chapter not found in Public API"
      else .error ("API Status: " ++ toString r.status)
    else
      match r.body with
      | none => .error "SyntaxError: invalid JSON response body"
      | some .null => .error "TypeError: Cannot read properties of null"
      | some data =>
        if !jsTruthy (jsonGet data "verses") then
          .error "No verses found in API response"
        else
          match jsonGet data "verses" with
          | some (.arr l) => l.mapM apiVerseOfJson
          | _ => .error "TypeError: data.verses.map is not a function"

/-- Name and configured timeout of one backend call. -/
structure BackendCallMeta where
  name : String
  timeoutMs : Option ℕ
deriving DecidableEq, Repr

/-- The backend calls of the chapter-resolution pipeline
(`getChapterContent`, part_003 lines 423–506), with their configured
timeouts as written in the source: the local-store lookup and the
generative `generateContent` call configure no timeout; only the
external API fetch passes `AbortSignal.timeout(8000)`. -/
def pipelineBackendCalls : List BackendCallMeta :=
  [ { name := "bibleDb.getChapter", timeoutMs := none },
    { name := "fetchFromPublicApi", timeoutMs := some 8000 },
    { name := "ai.models.generateContent", timeoutMs := none } ]

def exceptIsOk {ε α : Type} : Except ε α → Bool
  | .ok _ => true
  | .error _ => false

/-! ## `getChapterContent` (part_003 lines 423–506; claims C1, C4) -/

/-- The process-lifetime chapter cache `CACHE`
(`Map<string, Verse[]>`). -/
abbrev Cache := List (String × List Verse)

def cacheLookup (c : Cache) (k : String) : Option (List Verse) :=
  (c.find? (fun p => p.1 == k)).map Prod.snd

def cacheInsert (c : Cache) (k : String) (v : List Verse) : Cache :=
  (k, v) :: c

/-- The deterministic backend environment of one chapter request: the
local-store contents, the external API response, the generative
response text per attempt, and whether the configured key is the
missing-key placeholder. -/
structure ResolveWorld where
  dbStore : Store
  apiResp : Option HttpResponse
  aiText : ℕ → Except JsError (Option String)
  apiKeyMissing : Bool

/-- Per-verse normalization of the generative fallback (part_003 lines
485–488): `Math.floor(Number(v.verse))` and whitespace-stripped
`String(v.text)`. -/
def normalizeAiVerse (v : Json) : Except String Verse :=
  match jsProp v "verse" with
  | .error e => .error e
  | .ok vv =>
    match jsProp v "text" with
    | .error e => .error e
    | .ok tv =>
        .ok { verse := jsFloor (jsNumber vv), text := stripWs (jsToString tv) }

/-- One generative attempt of `getChapterContent` (part_003 lines
452–503): take `response.text || "\x7b\x7d"`, run `extractJSON`, pick
`data.verses || data.data || (Array.isArray(data) ? data : [])`,
normalize and filter (numeric verse, nonempty text); an empty outcome
throws `AI returned empty verse list`.  (The `CACHE.set` of the source
happens on exactly the successful return; the caller records it.) -/
def aiChapterAttempt (w : ResolveWorld) (i : ℕ) : Except JsError (List Verse) :=
  match w.aiText i with
  | .error e => .error e
  | .ok t =>
    let text := match t with
      | some s => if s = "" then "\x7b\x7d" else s
      | none => "\x7b\x7d"
    match extractJSON text .verses with
    | .error msg => .error ⟨msg, ""⟩
    | .ok data =>
      let rv : Json :=
        if jsTruthy (jsonGet data "verses") then (jsonGet data "verses").getD .null
        else if jsTruthy (jsonGet data "data") then (jsonGet data "data").getD .null
        else match data with
          | .arr _ => data
          | _ => .arr []
      match rv with
      | .arr l =>
        if l.isEmpty then .error ⟨"AI returned empty verse list", ""⟩
        else
          match l.mapM normalizeAiVerse with
          | .error e => .error ⟨e, ""⟩
          | .ok nv =>
            let typed := nv.filter (fun v => v.verse.isSome && v.text != "")
            if typed.isEmpty then .error ⟨"AI returned empty verse list", ""⟩
            else .ok typed
      | _ => .error ⟨"AI returned empty verse list", ""⟩

/-- The local-store step of `getChapterContent` (part_003 lines
429–440): a store hit with a nonempty verse list, whitespace-stripped;
anything else (miss, empty list, store failure) falls through. -/
def dbStepOf (w : ResolveWorld) (bookChi : String) (chapter : ℕ) :
    Option (List Verse) :=
  match dbGetChapter w.dbStore bookChi chapter with
  | .ok (some (v :: tl)) =>
      some ((v :: tl).map (fun x => { x with text := stripWs x.text }))
  | _ => none

/-- `getChapterContent` (part_003 lines 423–506): cache, then local
store (texts re-stripped, cached), then external API (cached), then the
retried generative fallback (cached on success).  Returns (result, new
cache, backend I/O count = store lookups + API fetches + generative
attempts). -/
def getChapterContent (w : ResolveWorld) (bookEng bookChi : String)
    (chapter : ℕ) (cache : Cache) :
    Except RetryErr (List Verse) × Cache × ℕ :=
  let cacheKey := bookEng ++ "-" ++ toString chapter
  match cacheLookup cache cacheKey with
  | some vs => (.ok vs, cache, 0)
  | none =>
    match dbStepOf w bookChi chapter with
    | some clean => (.ok clean, cacheInsert cache cacheKey clean, 1)
    | none =>
      match fetchFromPublicApi w.apiResp with
      | .ok (v :: tl) => (.ok (v :: tl), cacheInsert cache cacheKey (v :: tl), 2)
      | _ =>
        let r := withRetry w.apiKeyMissing (aiChapterAttempt w) 2 1000
        match r.1 with
        | .ok vs => (.ok vs, cacheInsert cache cacheKey vs, 2 + r.2.1)
        | .error e => (.error e, cache, 2 + r.2.1)

/-! ## `searchBible` (the local-first variant, bibleService.ts lines
123–148, over the scan of `bibleDb.search`, part_003; claim C3) -/

/-- Backend environment of one search request. -/
structure SearchWorld where
  aiText : ℕ → Except JsError (Option String)
  apiKeyMissing : Bool

/-- One generative search attempt (part_003 lines 531–564 /
bibleService.ts lines 136–147): `extractJSON` in search mode, then
`data.results || []`. -/
def aiSearchAttempt (w : SearchWorld) (i : ℕ) : Except JsError Json :=
  match w.aiText i with
  | .error e => .error e
  | .ok t =>
    let text := match t with
      | some s => if s = "" then "\x7b\x7d" else s
      | none => "\x7b\x7d"
    match extractJSON text .search with
    | .error msg => .error ⟨msg, ""⟩
    | .ok data =>
      .ok (if jsTruthy (jsonGet data "results") then
        (jsonGet data "results").getD .null
      else .arr [])

/-- `searchBible` (bibleService.ts lines 123–148): the local full-text
scan first; its results are returned whenever nonempty, and only a
zero-result scan falls through to the retried generative search.
Returns (result, number of generative calls made). -/
def searchBible (st : Store) (w : SearchWorld) (query : String) :
    Except RetryErr (List SearchResult ⊕ Json) × ℕ :=
  match dbSearch st query with
  | .ok (r :: rs) => (.ok (.inl (r :: rs)), 0)
  | _ =>
    let r := withRetry w.apiKeyMissing (aiSearchAttempt w) 2 1000
    match r.1 with
    | .ok j => (.ok (.inr j), r.2.1)
    | .error e => (.error e, r.2.1)

/-! ### C1: cache idempotence of `getChapterContent` -/

theorem cacheLookup_insert (c : Cache) (k : String) (v : List Verse) :
    cacheLookup (cacheInsert c k v) k = some v := by
  simp [cacheLookup, cacheInsert]

theorem getChapterContent_cache_hit (w : ResolveWorld) (be bc : String)
    (ch : ℕ) (cache : Cache) (vs : List Verse)
    (h : cacheLookup cache (be ++ "-" ++ toString ch) = some vs) :
    getChapterContent w be bc ch cache = (.ok vs, cache, 0) := by
  simp [getChapterContent, h]

theorem getChapterContent_success_caches (w : ResolveWorld)
    (be bc : String) (ch : ℕ) (cache : Cache) (vs : List Verse)
    (h : (getChapterContent w be bc ch cache).1 = .ok vs) :
    cacheLookup (getChapterContent w be bc ch cache).2.1
      (be ++ "-" ++ toString ch) = some vs := by
  cases h0 : cacheLookup cache (be ++ "-" ++ toString ch) with
  | some vs0 =>
      have he : getChapterContent w be bc ch cache = (.ok vs0, cache, 0) := by
        simp [getChapterContent, h0]
      rw [he] at h ⊢
      simp only at h ⊢
      injection h with h
      subst h
      exact h0
  | none =>
      cases hdb : dbStepOf w bc ch with
      | some clean =>
          have he : getChapterContent w be bc ch cache
              = (.ok clean,
                 cacheInsert cache (be ++ "-" ++ toString ch) clean, 1) := by
            simp [getChapterContent, h0, hdb]
          rw [he] at h ⊢
          simp only at h ⊢
          injection h with h
          subst h
          exact cacheLookup_insert cache _ clean
      | none =>
          have hai : ∀ hnoapi : (∀ v tl,
                fetchFromPublicApi w.apiResp ≠ .ok (v :: tl)),
              cacheLookup (getChapterContent w be bc ch cache).2.1
                (be ++ "-" ++ toString ch) = some vs := by
            intro hnoapi
            cases hr : (withRetry w.apiKeyMissing (aiChapterAttempt w)
                2 1000).1 with
            | ok vsa =>
                have he : getChapterContent w be bc ch cache
                    = (.ok vsa,
                       cacheInsert cache (be ++ "-" ++ toString ch) vsa,
                       2 + (withRetry w.apiKeyMissing (aiChapterAttempt w)
                         2 1000).2.1) := by
                  simp only [getChapterContent, h0, hdb]
                  cases hapi : fetchFromPublicApi w.apiResp with
                  | ok lv =>
                      cases lv with
                      | nil => simp [hr]
                      | cons v tl => exact absurd hapi (by
                          intro hc
                          exact hnoapi v tl hc)
                  | error e => simp [hr]
                rw [he] at h ⊢
                simp only at h ⊢
                injection h with h
                subst h
                exact cacheLookup_insert cache _ vsa
            | error e2 =>
                have he : (getChapterContent w be bc ch cache).1
                    = .error e2 := by
                  simp only [getChapterContent, h0, hdb]
                  cases hapi : fetchFromPublicApi w.apiResp with
                  | ok lv =>
                      cases lv with
                      | nil => simp [hr]
                      | cons v tl => exact absurd hapi (by
                          intro hc
                          exact hnoapi v tl hc)
                  | error e => simp [hr]
                rw [he] at h
                exact Except.noConfusion h
          cases hapi : fetchFromPublicApi w.apiResp with
          | ok lv =>
              cases lv with
              | nil =>
                  exact hai (by
                    intro v tl hc
                    rw [hapi] at hc
                    injection hc with hc
                    exact List.noConfusion hc)
              | cons v tl =>
                  have he : getChapterContent w be bc ch cache
                      = (.ok (v :: tl),
                         cacheInsert cache (be ++ "-" ++ toString ch)
                           (v :: tl), 2) := by
                    simp [getChapterContent, h0, hdb, hapi]
                  rw [he] at h ⊢
                  simp only at h ⊢
                  injection h with h
                  subst h
                  exact cacheLookup_insert cache _ (v :: tl)
          | error e =>
              exact hai (by
                intro v tl hc
                rw [hapi] at hc
                exact Except.noConfusion hc)

/-- C1: when a `getChapterContent` call resolves successfully (from the
cache, the local store, the external API, or the generative fallback),
the verse list is recorded in the process-lifetime cache, and a second
call with identical arguments — against any backend environment —
returns exactly that cached list while performing zero backend I/O
(no store lookup, no API fetch, no generative attempt). -/
theorem c1_second_call_cache_only (w w2 : ResolveWorld) (be bc : String)
    (ch : ℕ) (cache : Cache) (vs : List Verse)
    (h : (getChapterContent w be bc ch cache).1 = .ok vs) :
    getChapterContent w2 be bc ch (getChapterContent w be bc ch cache).2.1
      = (.ok vs, (getChapterContent w be bc ch cache).2.1, 0) :=
  getChapterContent_cache_hit w2 be bc ch _ vs
    (getChapterContent_success_caches w be bc ch cache vs h)

/-- Backend environment for the C1 witness: the local store holds the
chapter, the network and generative backends are dead. -/
def c1World : ResolveWorld :=
  { dbStore := some [("創世記-1", [⟨some 1, "起初 神創造天地"⟩])],
    apiResp := none,
    aiText := fun _ => .error ⟨"network down", ""⟩,
    apiKeyMissing := false }

/-- Witness for C1: a store-resolved first call; the second call is
answered from the cache with zero backend I/O. -/
theorem c1_second_call_cache_only_witness :
    getChapterContent c1World "Genesis" "創世記" 1
        (getChapterContent c1World "Genesis" "創世記" 1 []).2.1
      = (.ok [⟨some 1, "起初神創造天地"⟩],
         (getChapterContent c1World "Genesis" "創世記" 1 []).2.1, 0) :=
  c1_second_call_cache_only c1World c1World "Genesis" "創世記" 1 [] _
    (by with_unfolding_all rfl)

/-! ### C3: local search priority in `searchBible` -/

theorem withRetryGo_attempts_ge {α : Type} (akm : Bool)
    (op : ℕ → Except JsError α) (d : ℕ) :
    ∀ (fuel i : ℕ) (last : Option JsError),
      i ≤ (withRetryGo akm op d i fuel last).2.1 := by
  intro fuel
  induction fuel with
  | zero => intro i last; simp [withRetryGo]
  | succ f ih =>
    intro i last
    simp only [withRetryGo]
    cases h : op i with
    | ok v => simp
    | error e =>
      cases hc : classifyTerminal akm e with
      | some m => simp [hc]
      | none =>
        simp only [hc]
        by_cases hf : f = 0
        · simp [hf]
        · simp only [hf, if_false]
          have := ih (i + 1) (some e)
          omega

theorem withRetry_attempts_pos {α : Type} (akm : Bool)
    (op : ℕ → Except JsError α) (d : ℕ) :
    1 ≤ (withRetry akm op 2 d).2.1 := by
  unfold withRetry
  simp only [withRetryGo]
  cases h : op 0 with
  | ok v => simp
  | error e =>
    cases hc : classifyTerminal akm e with
    | some m => simp [hc]
    | none =>
      simp only [hc]
      cases h1 : op 1 with
      | ok v => simp
      | error e2 =>
        cases hc2 : classifyTerminal akm e2 with
        | some m2 => simp [hc2]
        | none => simp [hc2]

/-- C3: `searchBible` runs the local full-text scan first — for an
available store that scan is exactly the simple unbounded substring
match per verse over all stored chapters (`dbSearchScan`) — and
whenever the scan yields at least one result those results are returned
with zero generative calls; only a zero-result scan invokes the
generative path (at least one generative attempt). -/
theorem c3_local_search_first (st : Store) (w : SearchWorld) (q : String) :
    (∀ m, dbSearch (some m) q = .ok (dbSearchScan m q))
    ∧ (∀ r rs, dbSearch st q = .ok (r :: rs) →
        searchBible st w q = (.ok (.inl (r :: rs)), 0))
    ∧ (dbSearch st q = .ok [] → 1 ≤ (searchBible st w q).2) := by
  refine ⟨fun m => rfl, ?_, ?_⟩
  · intro r rs h
    simp [searchBible, h]
  · intro h
    simp only [searchBible, h]
    cases hr : (withRetry w.apiKeyMissing (aiSearchAttempt w) 2 1000).1 with
    | ok j =>
        simpa using withRetry_attempts_pos w.apiKeyMissing
          (aiSearchAttempt w) 1000
    | error e =>
        simpa using withRetry_attempts_pos w.apiKeyMissing
          (aiSearchAttempt w) 1000

/-- Backend environment for the C3 witness. -/
def c3World : SearchWorld :=
  { aiText := fun _ => .error ⟨"network down", ""⟩, apiKeyMissing := false }

/-- Witness for C3: a one-chapter store in which the query matches one
verse; the scan's single result is returned and no generative call is
made. -/
theorem c3_local_search_first_witness :
    searchBible (some [("創世記-1", [⟨some 1, "起初神創造天地"⟩])])
        c3World "神"
      = (.ok (.inl [⟨"創世記", some 1, some 1, "起初神創造天地"⟩]), 0) :=
  (c3_local_search_first _ c3World "神").2.1 _ []
    (by with_unfolding_all rfl)

/-! ### C4: float-like verse numbers through the generative fallback -/

/-- The generative response of the C4 scenario: verse-number literals
`1.00000000009`, `2.0` and `3`. -/
def c4ResponseText : String :=
  "\x7b\"verses\": [\x7b\"verse\": 1.00000000009, \"text\": \"a\"\x7d, \x7b\"verse\": 2.0, \"text\": \"b\"\x7d, \x7b\"verse\": 3, \"text\": \"c\"\x7d]\x7d"

/-- Backend environment of the C4 scenario: store and API miss, the
generative backend answers with `c4ResponseText`. -/
def c4World : ResolveWorld :=
  { dbStore := none,
    apiResp := none,
    aiText := fun _ => .ok (some c4ResponseText),
    apiKeyMissing := false }

/-- C4 evaluation at the claimed input: the pipeline returns verse
numbers 19, 2, 3 — not 1, 2, 3.  The pre-sanitizer regex
`"verse"\s*:\s*(\d+)\.0+` matches `1.0000000000` of `1.00000000009`
greedily (the zero run cannot include the final 9), rewrites it to
`"verse": 1` and leaves the `9` behind, producing the literal 19; the
entries 2.0 and 3 normalize to 2 and 3 as the claim says. -/
theorem c4_float_normalization_eval :
    (⟨sanitizeNums c4ResponseText.data⟩ : String)
      = "\x7b\"verses\": [\x7b\"verse\": 19, \"text\": \"a\"\x7d, \x7b\"verse\": 2, \"text\": \"b\"\x7d, \x7b\"verse\": 3, \"text\": \"c\"\x7d]\x7d"
    ∧ (getChapterContent c4World "Genesis" "創世記" 1 []).1
      = .ok [⟨some 19, "a"⟩, ⟨some 2, "b"⟩, ⟨some 3, "c"⟩] := by
  constructor
  · with_unfolding_all rfl
  · with_unfolding_all rfl

/-! ### C8: the external API timeout -/

/-- C8: the external chapter-API fetch carries the explicit 8000 ms
timeout, it is the only backend call of the content-resolution pipeline
with an explicit timeout, and a non-OK response or a response without a
`verses` field makes the fetch fail rather than yield verses. -/
theorem c8_api_timeout_only (book : String) (chapter : ℕ)
    (r : HttpResponse) (b : Json) :
    (fetchFromPublicApiRequest book chapter).timeoutMs = some 8000
    ∧ (∀ m ∈ pipelineBackendCalls, m.timeoutMs ≠ none →
        m.name = "fetchFromPublicApi")
    ∧ (r.ok = false → exceptIsOk (fetchFromPublicApi (some r)) = false)
    ∧ (r.body = some b → jsonGet b "verses" = none →
        exceptIsOk (fetchFromPublicApi (some r)) = false) := by
  refine ⟨rfl, ?_, ?_, ?_⟩
  · intro m hm hne
    fin_cases hm
    · exact absurd rfl hne
    · rfl
    · exact absurd rfl hne
  · intro hok
    simp only [fetchFromPublicApi, hok, Bool.not_false, if_true]
    split <;> rfl
  · intro hb hg
    by_cases hok : r.ok
    · simp only [fetchFromPublicApi, hok, Bool.not_true, Bool.false_eq_true,
        if_false, hb]
      cases b with
      | null => rfl
      | _ => simp [hg, jsTruthy, exceptIsOk]
    · simp only [Bool.not_eq_true] at hok
      simp only [fetchFromPublicApi, hok, Bool.not_false, if_true]
      split <;> rfl

/-- Witness for C8 at a concrete 500 response with an empty body
object. -/
theorem c8_api_timeout_only_witness :
    exceptIsOk (fetchFromPublicApi
      (some { ok := false, status := 500, body := some (Json.obj []) }))
      = false :=
  (c8_api_timeout_only "Genesis" 1
    { ok := false, status := 500, body := some (Json.obj []) }
    (Json.obj [])).2.2.1 rfl
